import Mathlib

/-!
# goatcounter: the in-memory hit buffer (`memstore.go`)

A shallow embedding of `ms.Append`, `ms.Len` and `ms.Persist`.

* Go slices are lists; `*int64` and `*url.URL` are `Option`; `int64` is `Int`.
* The mutex only serialises the calls; every operation below is one atomic
  step on the buffer, which is the behaviour of calls executed one after
  another.
* The collaborators that live outside `memstore.go` (`url.Parse`, the
  `refspam` table, `Site.ByID`, `WithSite`, `Session.GetOrCreate`,
  `Hit.Defaults`, `Hit.Validate`, the bulk inserter) are parameters, gathered
  in `Collab`.  The stateful ones thread an explicit world `W` (the database).
* Every call that leaves `memstore.go` is recorded, in order, in a call log.
-/

namespace Goatcounter

/-- The part of `url.URL` that `Persist` reads. -/
structure URL where
  Scheme : String
  Host : String
deriving DecidableEq

/-- The fields of `Hit` that `memstore.go` reads or writes (the type is
declared outside this file). `Session` is the `*int64` pointer (`none` is
`nil`), `RefURL` the `*url.URL` pointer. -/
structure Hit where
  Site : Int
  Path : String
  Ref : String
  RefScheme : Option String
  RefURL : Option URL
  Browser : String
  Size : List Int
  Location : String
  CreatedAt : Int
  Bot : Int
  Title : String
  Event : Bool
  Session : Option Int
  FirstVisit : Bool
  RemoteAddr : String
deriving DecidableEq

/-- One row given to `ins.Values`, in the column order of `bulk.NewInsert`
(lines 52-54 and 109-111). -/
structure Row where
  site : Int
  path : String
  ref : String
  ref_scheme : Option String
  browser : String
  size : List Int
  location : String
  created_at : String
  bot : Int
  title : String
  event : Bool
  session : Option Int
  first_visit : Bool
deriving DecidableEq

/-- A call that leaves `memstore.go`, with the outcome where the control flow
depends on it. -/
inductive Call where
  /-- `bulk.NewInsert(ctx, "hits", ...)`, line 52. -/
  | newInsert
  /-- `l.Debugf("refspam ignored: %q", host)`, line 60. -/
  | debugf (host : String)
  /-- `site.ByID(ctx, id)`, line 68; `ok` tells whether `err == nil`. -/
  | byID (id : Int) (ok : Bool)
  /-- `l.Field("hit", h).Error(err)`, lines 70, 86 and 100. -/
  | logError (h : Hit) (err : String)
  /-- `sess.GetOrCreate(ctx, path, browser, remoteAddr)`, line 84. -/
  | getOrCreate (path browser remoteAddr : String)
  /-- `h.Defaults(ctx)`, line 97, with the hit it is called on. -/
  | defaults (h : Hit)
  /-- `h.Validate(ctx)`, line 98, with the hit it is called on. -/
  | validate (h : Hit)
  /-- `ins.Values(...)`, line 109. -/
  | values (r : Row)
  /-- `ins.Finish()`, line 114. -/
  | finish
deriving DecidableEq

/-- Modelled from the spec: the collaborators of `Persist` (section 6), whose
code is outside `memstore.go`, as parameters. `W` is the state they share
(the database), `Ctx` the `context.Context`, `Site` the site record. Errors
are strings. Nothing is assumed of them beyond their signatures. -/
structure Collab (W Ctx Site : Type) where
  /-- `url.Parse`: `none` when it returns `nil` and an error. -/
  parse : String → Option URL
  /-- The keys of the `refspam` map. -/
  refspam : List String
  /-- `(*Site).ByID`. -/
  byID : W → Ctx → Int → W × Except String Site
  /-- `WithSite`. -/
  withSite : Ctx → Site → Ctx
  /-- `(*Session).GetOrCreate`: on success the session ID and `first`. -/
  getOrCreate : W → Ctx → String → String → String → W × Except String (Int × Bool)
  /-- `(*Hit).Defaults`: it may rewrite the hit. -/
  defaults : W → Ctx → Hit → W × Hit
  /-- `(*Hit).Validate`, on the hit as `Defaults` left it (section 6:
  `Validate(context, Hit)`); `none` is a nil error. -/
  validate : W → Ctx → Hit → W × Option String
  /-- `CreatedAt.Format(zdb.Date)`. -/
  formatDate : Int → String
  /-- `(*bulk.Insert).Finish` on the rows collected by `Values` (section 4.4:
  the rows accumulate until the one write of `Finish`). -/
  finish : W → List Row → W × Option String

/-- The buffer `ms` (line 17); the embedded mutex has no state of its own
under sequential execution. -/
structure ms where
  hits : List Hit
deriving DecidableEq

/-- `ms.Append`, lines 24-28. -/
def ms.Append (m : ms) (hits : List Hit) : ms :=
  { hits := m.hits ++ hits }

/-- `ms.Len`, lines 30-35. -/
def ms.Len (m : ms) : Nat :=
  m.hits.length

/-- The local variables of the loop of `Persist` (lines 43-54) together with
the world and the call log. `rows` is the content of the bulk inserter. -/
structure Loop (W Ctx Site : Type) where
  hits : List Hit
  ctx : Ctx
  sites : Int → Option Site
  w : W
  rows : List Row
  calls : List Call

variable {W Ctx Site : Type}

/-- The arguments of `ins.Values` for a hit, lines 109-111. -/
def rowOf (E : Collab W Ctx Site) (h : Hit) : Row :=
  { site := h.Site, path := h.Path, ref := h.Ref, ref_scheme := h.RefScheme,
    browser := h.Browser, size := h.Size, location := h.Location,
    created_at := E.formatDate h.CreatedAt, bot := h.Bot, title := h.Title,
    event := h.Event, session := h.Session, first_visit := h.FirstVisit }

/-- Line 57: `h.RefURL, _ = url.Parse(h.Ref)`. -/
def parseRef (E : Collab W Ctx Site) (h : Hit) : Hit :=
  { h with RefURL := E.parse h.Ref }

/-- Lines 58-59: the host of `h.RefURL` when `h.RefURL != nil` and the host
is a key of `refspam`. -/
def spamHost (E : Collab W Ctx Site) (h : Hit) : Option String :=
  match h.RefURL with
  | none => none
  | some u => if u.Host ∈ E.refspam then some u.Host else none

/-- Lines 65-74: the site of the hit, from the cache `sites` or loaded with
`ByID`; `none` is the `continue` of line 71. -/
def lookupSite (E : Collab W Ctx Site) (h : Hit) (s : Loop W Ctx Site) :
    Loop W Ctx Site × Option Site :=
  match s.sites h.Site with
  | some site => (s, some site)
  | none =>
    match E.byID s.w s.ctx h.Site with
    | (w, Except.error err) =>
      ({ s with w := w, calls := s.calls ++ [Call.byID h.Site false, Call.logError h err] }, none)
    | (w, Except.ok site) =>
      ({ s with w := w, calls := s.calls ++ [Call.byID h.Site true],
                sites := Function.update s.sites h.Site (some site) }, some site)

/-- Lines 82-94: the session of the hit; `none` is the `continue` of
line 87. -/
def createSession (E : Collab W Ctx Site) (h : Hit) (s : Loop W Ctx Site) :
    Loop W Ctx Site × Option Hit :=
  if h.Session = none ∨ h.Session = some 0 then
    match E.getOrCreate s.w s.ctx h.Path h.Browser h.RemoteAddr with
    | (w, Except.error err) =>
      ({ s with w := w, calls := s.calls ++
          [Call.getOrCreate h.Path h.Browser h.RemoteAddr, Call.logError h err] }, none)
    | (w, Except.ok (id, first)) =>
      ({ s with w := w, calls := s.calls ++ [Call.getOrCreate h.Path h.Browser h.RemoteAddr] },
        some { h with Session := some id, FirstVisit := if first then true else h.FirstVisit })
  else (s, some h)

/-- Lines 97-111: defaults, validation, write-back into `hits[i]` and the
row for the bulk inserter. -/
def persistHit (E : Collab W Ctx Site) (i : Nat) (h : Hit) (s : Loop W Ctx Site) :
    Loop W Ctx Site :=
  match E.defaults s.w s.ctx h with
  | (w1, h1) =>
    match E.validate w1 s.ctx h1 with
    | (w2, some err) =>
      { s with w := w2, calls := s.calls ++
          [Call.defaults h, Call.validate h1, Call.logError h1 err] }
    | (w2, none) =>
      { s with w := w2, hits := s.hits.set i h1, rows := s.rows ++ [rowOf E h1],
               calls := s.calls ++ [Call.defaults h, Call.validate h1, Call.values (rowOf E h1)] }

/-- The body of the loop, lines 56-111, for the iteration `i, h`. -/
def body (E : Collab W Ctx Site) (i : Nat) (h : Hit) (s : Loop W Ctx Site) :
    Loop W Ctx Site :=
  match spamHost E (parseRef E h) with
  | some host => { s with calls := s.calls ++ [Call.debugf host] }
  | none =>
    match lookupSite E (parseRef E h) s with
    | (s1, none) => s1
    | (s1, some site) =>
      match createSession E (parseRef E h) { s1 with ctx := E.withSite s1.ctx site } with
      | (s2, none) => s2
      | (s2, some h1) => persistHit E i h1 s2

/-- The loop `for i, h := range hits` (line 55) from index `i` on: `hs` are
the elements still to visit, read from the slice as it was drained. -/
def loop (E : Collab W Ctx Site) : Nat → List Hit → Loop W Ctx Site → Loop W Ctx Site
  | _, [], s => s
  | i, h :: hs, s => loop E (i + 1) hs (body E i h s)

/-- What a call of `Persist` leaves behind: the buffer, the two return
values (`hits = none` is the nil slice), the world, the call log, the copy
taken at lines 43-44 (empty on the early return) and the rows given to the
bulk inserter. -/
structure PersistResult (W : Type) where
  m : ms
  hits : Option (List Hit)
  err : Option String
  w : W
  calls : List Call
  drained : List Hit
  rows : List Row

/-- The state in which the loop starts, lines 43-54. -/
def loopInit (ctx : Ctx) (w : W) (hits : List Hit) : Loop W Ctx Site :=
  { hits := hits, ctx := ctx, sites := fun _ => none, w := w, rows := [],
    calls := [Call.newInsert] }

/-- `ms.Persist`, lines 37-115. -/
def ms.Persist (E : Collab W Ctx Site) (ctx : Ctx) (w : W) (m : ms) : PersistResult W :=
  if m.Len = 0 then
    { m := m, hits := none, err := none, w := w, calls := [], drained := [], rows := [] }
  else
    let hits := m.hits
    let s := loop E 0 hits (loopInit ctx w hits)
    match E.finish s.w s.rows with
    | (w1, err) =>
      { m := { hits := [] }, hits := some s.hits, err := err, w := w1,
        calls := s.calls ++ [Call.finish], drained := hits, rows := s.rows }

/-- One call on the buffer: `Append(hs...)` or `Persist(ctx)`. -/
inductive Op (Ctx : Type) where
  | append (hs : List Hit)
  | persist (ctx : Ctx)

/-- The buffer and the world between two calls, with the copies drained by
the `Persist` calls so far, in call order. -/
structure Run (W : Type) where
  m : ms
  w : W
  snapshots : List (List Hit)

/-- Executes one call. -/
def step (E : Collab W Ctx Site) (r : Run W) : Op Ctx → Run W
  | Op.append hs => { r with m := r.m.Append hs }
  | Op.persist ctx =>
    let p := r.m.Persist E ctx r.w
    { m := p.m, w := p.w, snapshots := r.snapshots ++ [p.drained] }

/-- Executes the calls one after another. -/
def run (E : Collab W Ctx Site) (ops : List (Op Ctx)) (r : Run W) : Run W :=
  ops.foldl (step E) r

/-- The arguments of the `Append` calls, concatenated in call order. -/
def appended : List (Op Ctx) → List Hit
  | [] => []
  | Op.append hs :: ops => hs ++ appended ops
  | Op.persist _ :: ops => appended ops

/-! ## The flush pipeline as the specification words it

Section 4.2, step 2, read as a function on the state the collaborators see:
the context, the per-flush site cache and the world. -/

/-- What the collaborators see during one flush. -/
structure Env (W Ctx Site : Type) where
  ctx : Ctx
  sites : Int → Option Site
  w : W

/-- The collaborator state inside a loop state. -/
def Loop.env (s : Loop W Ctx Site) : Env W Ctx Site :=
  { ctx := s.ctx, sites := s.sites, w := s.w }

/-- Condition (1) negated: the referrer parses and its host is in the spam
set (step 2b). -/
def isSpam (E : Collab W Ctx Site) (h : Hit) : Bool :=
  match E.parse h.Ref with
  | none => false
  | some u => decide (u.Host ∈ E.refspam)

/-- Condition (2): the site of the hit resolves, through the per-flush cache
(step 2c). -/
def specSite (E : Collab W Ctx Site) (k : Env W Ctx Site) (id : Int) :
    Env W Ctx Site × Option Site :=
  match k.sites id with
  | some site => (k, some site)
  | none =>
    match E.byID k.w k.ctx id with
    | (w, Except.ok site) =>
      ({ k with w := w, sites := Function.update k.sites id (some site) }, some site)
    | (w, Except.error _) => ({ k with w := w }, none)

/-- The hit has no session identifier, or the sentinel 0 (step 2d). -/
def noSession (h : Hit) : Bool :=
  match h.Session with
  | none => true
  | some id => id == 0

/-- Condition (3): the hit has a non-zero session, or the resolver gives it
one (step 2d). -/
def specSession (E : Collab W Ctx Site) (k : Env W Ctx Site) (h : Hit) :
    Env W Ctx Site × Option Hit :=
  if noSession h then
    match E.getOrCreate k.w k.ctx h.Path h.Browser h.RemoteAddr with
    | (w, Except.ok (id, first)) =>
      ({ k with w := w }, some { h with Session := some id, FirstVisit := first || h.FirstVisit })
    | (w, Except.error _) => ({ k with w := w }, none)
  else (k, some h)

/-- Condition (4): the hit passes validation after defaulting (step 2e). -/
def specValidate (E : Collab W Ctx Site) (k : Env W Ctx Site) (h : Hit) :
    Env W Ctx Site × Option Hit :=
  let d := E.defaults k.w k.ctx h
  let v := E.validate d.1 k.ctx d.2
  ({ k with w := v.1 }, if v.2 = none then some d.2 else none)

/-- Step 2 for one hit: the enriched hit when it is persisted-eligible,
`none` when it is skipped. -/
def specHit (E : Collab W Ctx Site) (k : Env W Ctx Site) (h : Hit) :
    Env W Ctx Site × Option Hit :=
  if isSpam E h then (k, none)
  else
    match specSite E k h.Site with
    | (k1, none) => (k1, none)
    | (k1, some site) =>
      match specSession E { k1 with ctx := E.withSite k1.ctx site } (parseRef E h) with
      | (k2, none) => (k2, none)
      | (k2, some h1) => specValidate E k2 h1

/-- Step 2 for the drained hits, in their order: for each hit the enriched
hit or `none`. -/
def specBatch (E : Collab W Ctx Site) : Env W Ctx Site → List Hit →
    Env W Ctx Site × List (Option Hit)
  | k, [] => (k, [])
  | k, h :: hs =>
    let r := specHit E k h
    let t := specBatch E r.1 hs
    (t.1, r.2 :: t.2)

/-- The collaborator state at the start of a flush: the caller's context, an
empty site cache (line 48). -/
def envInit (ctx : Ctx) (w : W) : Env W Ctx Site :=
  { ctx := ctx, sites := fun _ => none, w := w }

/-! ## Definitions used in the statements -/

/-- The write-back of line 107 for an outcome: slot `i` takes the enriched
hit, or is left alone when the hit was skipped. -/
def writeBack (hits : List Hit) (i : Nat) : Option Hit → List Hit
  | some h => hits.set i h
  | none => hits

/-- Hit `i` of the drained slice `hs` reached the bulk inserter: iteration
`i` of the loop of `Persist` added a row (line 109). The state before
iteration `i` is the loop run over the first `i` hits. -/
def rowAdded (E : Collab W Ctx Site) (ctx : Ctx) (w : W) (hs : List Hit) (i : Nat) : Bool :=
  decide ((loop E 0 (hs.take (i + 1)) (loopInit ctx w hs)).rows.length =
    (loop E 0 (hs.take i) (loopInit ctx w hs)).rows.length + 1)

/-- The loop state when iteration `i` of the loop over the drained slice
`hs` starts: the loop run over the first `i` hits. -/
def stateBefore (E : Collab W Ctx Site) (ctx : Ctx) (w : W) (hs : List Hit) (i : Nat) :
    Loop W Ctx Site :=
  loop E 0 (hs.take i) (loopInit ctx w hs)

/-- The external calls made by iteration `i` of the loop over `hs`, in
order: the call log after iteration `i` without the log before it. -/
def callsIn (E : Collab W Ctx Site) (ctx : Ctx) (w : W) (hs : List Hit) (i : Nat) :
    List Call :=
  (stateBefore E ctx w hs (i + 1)).calls.drop (stateBefore E ctx w hs i).calls.length

/-- The write-backs of a run of outcomes, from slot `i` on. -/
def writeBackAll : Nat → List Hit → List (Option Hit) → List Hit
  | _, hits, [] => hits
  | i, hits, o :: os => writeBackAll (i + 1) (writeBack hits i o) os

/-- The session table of the example resolver: fingerprint and session ID. -/
abbrev Sessions := List ((String × String × String) × Int)

/-- Example collaborators. The referrer `"%zz"` does not parse, any other
referrer is its own host; `spam.example` is the spam set; only site 1
exists; the session resolver keeps one session per fingerprint and fails on
an empty browser; validation wants a path; `Finish` returns `finishErr`. -/
def demo (finishErr : Option String) : Collab Sessions (Option Int) Int where
  parse ref := if ref = "%zz" then none else some { Scheme := "https", Host := ref }
  refspam := ["spam.example"]
  byID w _ id := if id = 1 then (w, Except.ok id) else (w, Except.error "site not found")
  withSite _ site := some site
  getOrCreate w _ path browser addr :=
    if browser = "" then (w, Except.error "no browser")
    else
      match w.lookup (path, browser, addr) with
      | some id => (w, Except.ok (id, false))
      | none => (((path, browser, addr), (w.length : Int) + 1) :: w,
                  Except.ok ((w.length : Int) + 1, true))
  defaults w _ h := (w, h)
  validate w _ h := (w, if h.Path = "" then some "path: must be set" else none)
  formatDate t := toString t
  finish w _ := (w, finishErr)

/-- An example hit without session. -/
def hit (site : Int) (path ref browser : String) : Hit :=
  { Site := site, Path := path, Ref := ref, RefScheme := none, RefURL := none,
    Browser := browser, Size := [], Location := "", CreatedAt := 0, Bot := 0,
    Title := "", Event := false, Session := none, FirstVisit := false,
    RemoteAddr := "10.0.0.1" }

/-- The example of section 8: a spam referrer, a referrer that does not
parse, a clean hit. -/
def threeHits : List Hit :=
  [hit 1 "/a" "spam.example" "firefox", hit 1 "/b" "%zz" "firefox", hit 1 "/c" "" "firefox"]

/-- The call is a `site.ByID`. -/
def Call.isByID : Call → Bool
  | Call.byID _ _ => true
  | _ => false

/-- No reload: once `ByID` has succeeded for `id`, a later call is not a
`ByID` for `id`. -/
def NoReload (c d : Call) : Prop :=
  ∀ id : Int, c = Call.byID id true → ∀ ok : Bool, d ≠ Call.byID id ok

/-- The invariant of the loop on the cache and the call log: no reload in
the log, and every site loaded with success is in the cache. -/
def SiteInv (sites : Int → Option Site) (calls : List Call) : Prop :=
  calls.Pairwise NoReload ∧ ∀ id : Int, Call.byID id true ∈ calls → sites id ≠ none

/-- What the session resolver is called with for a hit (line 84). -/
def fingerprint (h : Hit) : String × String × String :=
  (h.Path, h.Browser, h.RemoteAddr)

/-- The session resolver enforces first-creation-wins: `known w fp` is the
session the resolver holds for the fingerprint `fp` in the world `w`. A
fingerprint that has a session gets that session back, not reported as new;
a session reported for a fingerprint without one is new and is recorded for
it; the sessions of other fingerprints, and all sessions when the call fails,
stay as they are; the other collaborators leave the sessions alone. -/
structure FirstCreationWins (E : Collab W Ctx Site)
    (known : W → String × String × String → Option Int) : Prop where
  reuse : ∀ w c p b a id r, known w (p, b, a) = some id →
    (E.getOrCreate w c p b a).2 = Except.ok r → r = (id, false)
  fresh : ∀ w c p b a id first, known w (p, b, a) = none →
    (E.getOrCreate w c p b a).2 = Except.ok (id, first) → first = true
  records : ∀ w c p b a id first, (E.getOrCreate w c p b a).2 = Except.ok (id, first) →
    known (E.getOrCreate w c p b a).1 (p, b, a) = some id
  others : ∀ w c p b a fp, fp ≠ (p, b, a) →
    known (E.getOrCreate w c p b a).1 fp = known w fp
  failure : ∀ w c p b a err, (E.getOrCreate w c p b a).2 = Except.error err →
    known (E.getOrCreate w c p b a).1 = known w
  byID_keeps : ∀ w c id, known (E.byID w c id).1 = known w
  defaults_keeps : ∀ w c h, known (E.defaults w c h).1 = known w
  validate_keeps : ∀ w c h, known (E.validate w c h).1 = known w

/-- The example collaborators with a `Defaults` that clears the session of
the hit. -/
def demoClearing : Collab Sessions (Option Int) Int :=
  { demo none with defaults := fun w _ h => (w, { h with Session := none }) }

/-- Five valid example hits. -/
def fiveHits : List Hit :=
  [hit 1 "/a" "" "firefox", hit 1 "/b" "" "firefox", hit 1 "/c" "" "firefox",
    hit 1 "/d" "" "firefox", hit 1 "/e" "" "firefox"]

/-- Three example hits that are all skipped: spam referrer, unknown site,
no path. -/
def skippedHits : List Hit :=
  [hit 1 "/a" "spam.example" "firefox", hit 2 "/b" "" "firefox", hit 1 "" "" "firefox"]

/-! ## The loop refines the specification -/

theorem spamHost_parseRef (E : Collab W Ctx Site) (h : Hit) :
    (spamHost E (parseRef E h)).isSome = isSpam E h := by
  unfold spamHost parseRef isSpam
  cases E.parse h.Ref with
  | none => rfl
  | some u =>
    by_cases hu : u.Host ∈ E.refspam <;> simp [hu]

theorem lookupSite_spec (E : Collab W Ctx Site) (h : Hit) (s : Loop W Ctx Site) :
    (lookupSite E h s).1.env = (specSite E s.env h.Site).1 ∧
      (lookupSite E h s).2 = (specSite E s.env h.Site).2 ∧
      (lookupSite E h s).1.hits = s.hits ∧ (lookupSite E h s).1.rows = s.rows := by
  unfold lookupSite specSite
  simp only [Loop.env]
  cases hc : s.sites h.Site with
  | some site => simp
  | none =>
    rcases hb : E.byID s.w s.ctx h.Site with ⟨w, r⟩
    cases r <;> simp

theorem createSession_spec (E : Collab W Ctx Site) (h : Hit) (s : Loop W Ctx Site) :
    (createSession E h s).1.env = (specSession E s.env h).1 ∧
      (createSession E h s).2 = (specSession E s.env h).2 ∧
      (createSession E h s).1.hits = s.hits ∧ (createSession E h s).1.rows = s.rows := by
  unfold createSession specSession
  simp only [Loop.env]
  rcases hb : E.getOrCreate s.w s.ctx h.Path h.Browser h.RemoteAddr with ⟨w, r⟩
  cases hs : h.Session with
  | none => cases r <;> simp [noSession, hs]
  | some id =>
    by_cases h0 : id = 0
    · cases r <;> simp [noSession, hs, h0]
    · simp [noSession, hs, h0]

theorem persistHit_spec (E : Collab W Ctx Site) (i : Nat) (h : Hit) (s : Loop W Ctx Site) :
    (persistHit E i h s).env = (specValidate E s.env h).1 ∧
      (persistHit E i h s).rows = s.rows ++ (specValidate E s.env h).2.toList.map (rowOf E) ∧
      (persistHit E i h s).hits = writeBack s.hits i (specValidate E s.env h).2 := by
  unfold persistHit specValidate
  simp only [Loop.env]
  rcases hv : E.validate (E.defaults s.w s.ctx h).1 s.ctx (E.defaults s.w s.ctx h).2
    with ⟨w2, e⟩
  cases e <;> simp [writeBack]

theorem body_spec (E : Collab W Ctx Site) (i : Nat) (h : Hit) (s : Loop W Ctx Site) :
    (body E i h s).env = (specHit E s.env h).1 ∧
      (body E i h s).rows = s.rows ++ (specHit E s.env h).2.toList.map (rowOf E) ∧
      (body E i h s).hits = writeBack s.hits i (specHit E s.env h).2 := by
  have hsp := spamHost_parseRef E h
  unfold body specHit
  cases hspam : spamHost E (parseRef E h) with
  | some host =>
    rw [hspam] at hsp
    simp [← hsp, Loop.env, writeBack]
  | none =>
    rw [hspam] at hsp
    simp only [← hsp, Option.isSome_none, Bool.false_eq_true, if_false]
    obtain ⟨l1, l2, l3, l4⟩ := lookupSite_spec E (parseRef E h) s
    have hsite : (parseRef E h).Site = h.Site := rfl
    rw [hsite] at l1 l2
    rcases hl : lookupSite E (parseRef E h) s with ⟨s1, o1⟩
    rcases hk : specSite E s.env h.Site with ⟨k1, p1⟩
    rw [hl, hk] at l1 l2
    rw [hl] at l3 l4
    simp only at l1 l2 l3 l4
    subst l2
    cases o1 with
    | none => simp [l1, l3, l4, writeBack]
    | some site =>
      simp only
      obtain ⟨c1, c2, c3, c4⟩ := createSession_spec E (parseRef E h)
        { s1 with ctx := E.withSite s1.ctx site }
      have henv : (Loop.env { s1 with ctx := E.withSite s1.ctx site }) =
          { k1 with ctx := E.withSite k1.ctx site } := by
        rw [← l1]; rfl
      rw [henv] at c1 c2
      rcases hc : createSession E (parseRef E h) { s1 with ctx := E.withSite s1.ctx site }
        with ⟨s2, o2⟩
      rcases hq : specSession E { k1 with ctx := E.withSite k1.ctx site } (parseRef E h)
        with ⟨k2, p2⟩
      rw [hc, hq] at c1 c2
      rw [hc] at c3 c4
      simp only at c1 c2 c3 c4
      subst c2
      cases o2 with
      | none => simp [c1, c3, c4, l3, l4, writeBack]
      | some h1 =>
        simp only
        obtain ⟨p1, p2, p3⟩ := persistHit_spec E i h1 s2
        rw [c1] at p1 p2 p3
        rw [p1, p2, p3, c3, c4, l3, l4]
        exact ⟨rfl, rfl, rfl⟩

theorem loop_spec (E : Collab W Ctx Site) (hs : List Hit) :
    ∀ (i : Nat) (s : Loop W Ctx Site),
      (loop E i hs s).env = (specBatch E s.env hs).1 ∧
      (loop E i hs s).rows = s.rows ++ (specBatch E s.env hs).2.reduceOption.map (rowOf E) ∧
      (loop E i hs s).hits = writeBackAll i s.hits (specBatch E s.env hs).2 := by
  induction hs with
  | nil => intro i s; simp [loop, specBatch, writeBackAll]
  | cons h hs ih =>
    intro i s
    obtain ⟨b1, b2, b3⟩ := body_spec E i h s
    obtain ⟨i1, i2, i3⟩ := ih (i + 1) (body E i h s)
    simp only [loop, specBatch]
    rw [b1] at i1 i2 i3
    refine ⟨i1, ?_, ?_⟩
    · rw [i2, b2]
      cases (specHit E s.env h).2 <;> simp [List.reduceOption_cons_of_some, List.reduceOption_cons_of_none]
    · rw [i3, b3]; rfl

theorem specBatch_length (E : Collab W Ctx Site) (hs : List Hit) :
    ∀ k : Env W Ctx Site, (specBatch E k hs).2.length = hs.length := by
  induction hs with
  | nil => intro k; rfl
  | cons h hs ih => intro k; simp [specBatch, ih]

theorem writeBackAll_eq (os : List (Option Hit)) :
    ∀ (done rest : List Hit), os.length = rest.length →
      writeBackAll done.length (done ++ rest) os =
        done ++ List.zipWith (fun o h => o.getD h) os rest := by
  induction os with
  | nil => intro done rest hl; cases rest <;> simp_all [writeBackAll]
  | cons o os ih =>
    intro done rest hl
    cases rest with
    | nil => simp at hl
    | cons r rest =>
      have hl2 : os.length = rest.length := by simpa using hl
      have key : writeBack (done ++ r :: rest) done.length o = (done ++ [o.getD r]) ++ rest := by
        cases o <;> simp [writeBack]
      have := ih (done ++ [o.getD r]) rest hl2
      simp only [writeBackAll, key]
      simp only [List.length_append, List.length_singleton] at this
      rw [this]
      simp

/-- What `Persist` does on a non-empty buffer, in terms of the
specification of the batch. -/
theorem Persist_spec (E : Collab W Ctx Site) (ctx : Ctx) (w : W) (m : ms)
    (hne : m.hits ≠ []) :
    (m.Persist E ctx w).rows =
        (specBatch E (envInit ctx w) m.hits).2.reduceOption.map (rowOf E) ∧
      (m.Persist E ctx w).hits =
        some (List.zipWith (fun o h => o.getD h) (specBatch E (envInit ctx w) m.hits).2 m.hits) ∧
      (m.Persist E ctx w).err =
        (E.finish (specBatch E (envInit ctx w) m.hits).1.w (m.Persist E ctx w).rows).2 ∧
      (m.Persist E ctx w).m = { hits := [] } ∧
      (m.Persist E ctx w).drained = m.hits := by
  have hlen : ¬ m.Len = 0 := by
    simpa [ms.Len, List.length_eq_zero] using hne
  obtain ⟨l1, l2, l3⟩ := loop_spec E m.hits 0 (loopInit ctx w m.hits)
  have henv : (loopInit ctx w m.hits : Loop W Ctx Site).env = envInit ctx w := rfl
  rw [henv] at l1 l2 l3
  have hw := writeBackAll_eq (specBatch E (envInit ctx w) m.hits).2 [] m.hits
    (specBatch_length E m.hits _)
  simp only [List.length_nil, List.nil_append] at hw
  have l3b : (loop E 0 m.hits (loopInit ctx w m.hits)).hits =
      List.zipWith (fun o h => o.getD h) (specBatch E (envInit ctx w) m.hits).2 m.hits := by
    rw [l3]; exact hw
  have l1w : (loop E 0 m.hits (loopInit ctx w m.hits)).w =
      (specBatch E (envInit ctx w) m.hits).1.w := by
    rw [← l1]; rfl
  have l2b : (loop E 0 m.hits (loopInit ctx w m.hits)).rows =
      (specBatch E (envInit ctx w) m.hits).2.reduceOption.map (rowOf E) := by
    rw [l2]; rfl
  unfold ms.Persist
  simp only [hlen, if_false]
  rw [l1w, l2b, l3b]
  simp

/-! ## Helper lemmas on `Persist` -/

theorem Persist_empty (E : Collab W Ctx Site) (ctx : Ctx) (w : W) :
    ms.Persist E ctx w { hits := [] } =
      { m := { hits := [] }, hits := none, err := none, w := w, calls := [], drained := [],
        rows := [] } := by
  simp [ms.Persist, ms.Len]

theorem Persist_drains (E : Collab W Ctx Site) (ctx : Ctx) (w : W) (m : ms) :
    (m.Persist E ctx w).drained = m.hits ∧ (m.Persist E ctx w).m.hits = [] := by
  rcases m with ⟨hits⟩
  cases hits with
  | nil => rw [Persist_empty]; exact ⟨rfl, rfl⟩
  | cons h hs =>
    obtain ⟨_, _, _, h4, h5⟩ := Persist_spec E ctx w { hits := h :: hs } (by simp)
    rw [h4, h5]; exact ⟨rfl, rfl⟩

theorem Persist_hits_length (E : Collab W Ctx Site) (ctx : Ctx) (w : W) (m : ms)
    (hpos : 0 < m.Len) :
    ∃ hs, (m.Persist E ctx w).hits = some hs ∧ hs.length = m.Len := by
  have hne : m.hits ≠ [] := by
    intro h; simp [ms.Len, h] at hpos
  obtain ⟨_, h2, _⟩ := Persist_spec E ctx w m hne
  refine ⟨_, h2, ?_⟩
  simp [List.length_zipWith, specBatch_length, ms.Len]

theorem run_invariant (E : Collab W Ctx Site) (ops : List (Op Ctx)) :
    ∀ r : Run W, (run E ops r).snapshots.flatten ++ (run E ops r).m.hits =
      r.snapshots.flatten ++ r.m.hits ++ appended ops := by
  induction ops with
  | nil => intro r; simp [run, appended]
  | cons op ops ih =>
    intro r
    have hstep : run E (op :: ops) r = run E ops (step E r op) := rfl
    rw [hstep, ih]
    cases op with
    | append hs => simp [step, appended, ms.Append]
    | persist ctx =>
      obtain ⟨d1, d2⟩ := Persist_drains E ctx r.w r.m
      simp [step, appended, d1, d2]

theorem Persist_rows (E : Collab W Ctx Site) (ctx : Ctx) (w : W) (m : ms) :
    (m.Persist E ctx w).rows =
      (specBatch E (envInit ctx w) m.hits).2.reduceOption.map (rowOf E) := by
  rcases m with ⟨hits⟩
  cases hits with
  | nil => rw [Persist_empty]; rfl
  | cons h hs => exact (Persist_spec E ctx w { hits := h :: hs } (by simp)).1

theorem specBatch_getElem (E : Collab W Ctx Site) (hs : List Hit) :
    ∀ (k : Env W Ctx Site) (i : Nat) (o : Option Hit), (specBatch E k hs).2[i]? = some o →
      ∃ k1 h, hs[i]? = some h ∧ o = (specHit E k1 h).2 := by
  induction hs with
  | nil => intro k i o ho; simp [specBatch] at ho
  | cons h hs ih =>
    intro k i o ho
    cases i with
    | zero =>
      refine ⟨k, h, by simp, ?_⟩
      simpa [specBatch] using ho.symm
    | succ i =>
      have ho2 : (specBatch E (specHit E k h).1 hs).2[i]? = some o := by
        simpa [specBatch] using ho
      obtain ⟨k1, h1, e1, e2⟩ := ih _ i o ho2
      exact ⟨k1, h1, by simpa using e1, e2⟩

theorem specSession_some (E : Collab W Ctx Site) (k k2 : Env W Ctx Site) (h h1 : Hit)
    (hs : specSession E k h = (k2, some h1)) :
    h1.Session ≠ none ∧ (noSession h = false → h1 = h) ∧
      { h1 with Session := h.Session, FirstVisit := h.FirstVisit } = h ∧
      (h.FirstVisit = true → h1.FirstVisit = true) ∧ k2.ctx = k.ctx := by
  unfold specSession at hs
  by_cases hn : noSession h = true
  · rw [if_pos hn] at hs
    rcases hg : E.getOrCreate k.w k.ctx h.Path h.Browser h.RemoteAddr with ⟨w, r⟩
    rw [hg] at hs
    cases r with
    | error e => simp at hs
    | ok p =>
      rcases p with ⟨id, first⟩
      simp only [Prod.mk.injEq, Option.some.injEq] at hs
      obtain ⟨hk, hh⟩ := hs
      subst hh; subst hk
      refine ⟨by simp, fun hf => by simp [hn] at hf, rfl, fun hf => by simp [hf], rfl⟩
  · rw [if_neg hn] at hs
    simp only [Prod.mk.injEq, Option.some.injEq] at hs
    obtain ⟨hk, hh⟩ := hs
    subst hh; subst hk
    have hsess : h.Session ≠ none := by
      intro hc; apply hn; simp [noSession, hc]
    simp [hsess]

theorem specHit_some (E : Collab W Ctx Site) (k : Env W Ctx Site) (h h2 : Hit)
    (ho : (specHit E k h).2 = some h2) :
    isSpam E h = false ∧
      ∃ w c h1, h2 = (E.defaults w c h1).2 ∧ (E.validate (E.defaults w c h1).1 c h2).2 = none ∧
        h1.RefURL = E.parse h.Ref ∧ h1.Session ≠ none ∧
        (noSession h = false → h1.Session = h.Session ∧ h1.FirstVisit = h.FirstVisit) ∧
        { h1 with RefURL := h.RefURL, Session := h.Session, FirstVisit := h.FirstVisit } = h := by
  unfold specHit at ho
  by_cases hsp : isSpam E h = true
  · simp [hsp] at ho
  · simp only [hsp, Bool.false_eq_true, if_false] at ho
    refine ⟨by simpa using hsp, ?_⟩
    rcases hk : specSite E k h.Site with ⟨k1, o1⟩
    rw [hk] at ho
    cases o1 with
    | none => simp at ho
    | some site =>
      simp only at ho
      rcases hq : specSession E { k1 with ctx := E.withSite k1.ctx site } (parseRef E h)
        with ⟨k2, o2⟩
      rw [hq] at ho
      cases o2 with
      | none => simp at ho
      | some h1 =>
        simp only [specValidate] at ho
        obtain ⟨s1, s2, s3, s4, s5⟩ := specSession_some E _ k2 (parseRef E h) h1 hq
        by_cases hv : (E.validate (E.defaults k2.w k2.ctx h1).1 k2.ctx
            (E.defaults k2.w k2.ctx h1).2).2 = none
        · rw [if_pos hv] at ho
          simp only [Option.some.injEq] at ho
          refine ⟨k2.w, k2.ctx, h1, ho.symm, ?_, ?_, s1, ?_, ?_⟩
          · rw [← ho]; exact hv
          · have := congrArg Hit.RefURL s3
            simpa [parseRef] using this
          · intro hn
            have hn2 : noSession (parseRef E h) = false := by simpa [noSession, parseRef] using hn
            rw [s2 hn2]; exact ⟨rfl, rfl⟩
          · have e1 := congrArg (fun x : Hit => { x with RefURL := h.RefURL }) s3
            simp only [parseRef] at e1
            exact e1
        · rw [if_neg hv] at ho
          simp at ho

theorem rows_of_written (f : Hit → Row) (os : List (Option Hit)) :
    ∀ hs : List Hit, os.length = hs.length →
      os.reduceOption.map f =
        (List.zip os (List.zipWith (fun o h => o.getD h) os hs)).filterMap
          (fun p => if p.1.isSome then some (f p.2) else none) := by
  induction os with
  | nil => intro hs _; simp
  | cons o os ih =>
    intro hs hl
    cases hs with
    | nil => simp at hl
    | cons h hs =>
      have hl2 : os.length = hs.length := by simpa using hl
      cases o with
      | none => simp [List.reduceOption_cons_of_none, ih hs hl2]
      | some x => simp [List.reduceOption_cons_of_some, ih hs hl2]

theorem specBatch_append (E : Collab W Ctx Site) (xs ys : List Hit) :
    ∀ k : Env W Ctx Site, specBatch E k (xs ++ ys) =
      ((specBatch E (specBatch E k xs).1 ys).1,
        (specBatch E k xs).2 ++ (specBatch E (specBatch E k xs).1 ys).2) := by
  induction xs with
  | nil => intro k; simp [specBatch]
  | cons x xs ih => intro k; simp [specBatch, ih]

theorem specHit_spam (E : Collab W Ctx Site) (k : Env W Ctx Site) (h : Hit)
    (hspam : isSpam E h = true) : specHit E k h = (k, none) := by
  simp [specHit, hspam]

/-! ## The call log and the site cache -/

theorem SiteInv_step (sites sites1 : Int → Option Site) (calls extra : List Call)
    (hinv : SiteInv sites calls) (hmono : ∀ j, sites j ≠ none → sites1 j ≠ none)
    (hpair : extra.Pairwise NoReload)
    (hmiss : ∀ id ok, Call.byID id ok ∈ extra → sites id = none)
    (hload : ∀ id, Call.byID id true ∈ extra → sites1 id ≠ none) :
    SiteInv sites1 (calls ++ extra) := by
  obtain ⟨hp, hc⟩ := hinv
  refine ⟨?_, ?_⟩
  · rw [List.pairwise_append]
    refine ⟨hp, hpair, ?_⟩
    intro a ha b hb id hae ok hbe
    rw [hae] at ha
    rw [hbe] at hb
    exact hc id ha (hmiss id ok hb)
  · intro id hm
    rcases List.mem_append.1 hm with h1 | h2
    · exact hmono id (hc id h1)
    · exact hload id h2

theorem lookupSite_inv (E : Collab W Ctx Site) (h : Hit) (s : Loop W Ctx Site)
    (hinv : SiteInv s.sites s.calls) :
    SiteInv (lookupSite E h s).1.sites (lookupSite E h s).1.calls := by
  unfold lookupSite
  cases hc : s.sites h.Site with
  | some site => exact hinv
  | none =>
    rcases hb : E.byID s.w s.ctx h.Site with ⟨w, r⟩
    cases r with
    | error err =>
      refine SiteInv_step s.sites _ s.calls _ hinv (fun j hj => hj) ?_ ?_ ?_
      · simp [NoReload]
      · intro id ok hm
        simp at hm
        rw [hm.1]; exact hc
      · intro id hm
        simp at hm
    | ok site =>
      refine SiteInv_step s.sites _ s.calls _ hinv ?_ ?_ ?_ ?_
      · intro j hj
        by_cases he : j = h.Site
        · subst he; simp
        · simpa [Function.update_noteq he] using hj
      · simp
      · intro id ok hm
        simp at hm
        rw [hm.1]; exact hc
      · intro id hm
        simp at hm
        subst hm
        simp

theorem createSession_inv (E : Collab W Ctx Site) (h : Hit) (s : Loop W Ctx Site)
    (hinv : SiteInv s.sites s.calls) :
    SiteInv (createSession E h s).1.sites (createSession E h s).1.calls := by
  unfold createSession
  split
  · rcases hb : E.getOrCreate s.w s.ctx h.Path h.Browser h.RemoteAddr with ⟨w, r⟩
    cases r with
    | error err =>
      refine SiteInv_step s.sites _ s.calls _ hinv (fun j hj => hj) ?_ ?_ ?_
      · simp [NoReload]
      · intro id ok hm; simp at hm
      · intro id hm; simp at hm
    | ok p =>
      refine SiteInv_step s.sites _ s.calls _ hinv (fun j hj => hj) ?_ ?_ ?_
      · simp
      · intro id ok hm; simp at hm
      · intro id hm; simp at hm
  · exact hinv

theorem persistHit_inv (E : Collab W Ctx Site) (i : Nat) (h : Hit) (s : Loop W Ctx Site)
    (hinv : SiteInv s.sites s.calls) :
    SiteInv (persistHit E i h s).sites (persistHit E i h s).calls := by
  unfold persistHit
  rcases hd : E.defaults s.w s.ctx h with ⟨w1, h1⟩
  dsimp only
  rcases hv : E.validate w1 s.ctx h1 with ⟨w2, e⟩
  cases e with
  | none =>
    dsimp only
    refine SiteInv_step s.sites _ s.calls _ hinv (fun j hj => hj) ?_ ?_ ?_
    · simp [NoReload]
    · intro id ok hm; simp at hm
    · intro id hm; simp at hm
  | some err =>
    dsimp only
    refine SiteInv_step s.sites _ s.calls _ hinv (fun j hj => hj) ?_ ?_ ?_
    · simp [NoReload]
    · intro id ok hm; simp at hm
    · intro id hm; simp at hm

theorem body_inv (E : Collab W Ctx Site) (i : Nat) (h : Hit) (s : Loop W Ctx Site)
    (hinv : SiteInv s.sites s.calls) :
    SiteInv (body E i h s).sites (body E i h s).calls := by
  unfold body
  cases hspam : spamHost E (parseRef E h) with
  | some host =>
    dsimp only
    refine SiteInv_step s.sites _ s.calls _ hinv (fun j hj => hj) ?_ ?_ ?_
    · simp
    · intro id ok hm; simp at hm
    · intro id hm; simp at hm
  | none =>
    dsimp only
    have hl := lookupSite_inv E (parseRef E h) s hinv
    rcases hk : lookupSite E (parseRef E h) s with ⟨s1, o1⟩
    rw [hk] at hl
    dsimp only at hl
    cases o1 with
    | none => exact hl
    | some site =>
      dsimp only
      have hc := createSession_inv E (parseRef E h) { s1 with ctx := E.withSite s1.ctx site } hl
      rcases hq : createSession E (parseRef E h) { s1 with ctx := E.withSite s1.ctx site }
        with ⟨s2, o2⟩
      rw [hq] at hc
      dsimp only at hc
      cases o2 with
      | none => exact hc
      | some h1 => exact persistHit_inv E i h1 s2 hc

theorem loop_inv (E : Collab W Ctx Site) (hs : List Hit) :
    ∀ (i : Nat) (s : Loop W Ctx Site), SiteInv s.sites s.calls →
      SiteInv (loop E i hs s).sites (loop E i hs s).calls := by
  induction hs with
  | nil => intro i s hinv; exact hinv
  | cons h hs ih => intro i s hinv; exact ih (i + 1) _ (body_inv E i h s hinv)

theorem Persist_noReload (E : Collab W Ctx Site) (ctx : Ctx) (w : W) (m : ms) :
    (m.Persist E ctx w).calls.Pairwise NoReload := by
  unfold ms.Persist
  split
  · exact List.Pairwise.nil
  · have h0 : SiteInv (loopInit ctx w m.hits : Loop W Ctx Site).sites
        (loopInit ctx w m.hits : Loop W Ctx Site).calls := by
      refine ⟨by simp [loopInit], ?_⟩
      intro id hm
      simp [loopInit] at hm
    have h1 := loop_inv E m.hits 0 _ h0
    have h2 := SiteInv_step _ _ _ [Call.finish] h1 (fun j hj => hj) (by simp)
      (by intro id ok hm; simp at hm) (by intro id hm; simp at hm)
    exact h2.1

theorem count_le_one_of_noReload (calls : List Call) (hp : calls.Pairwise NoReload)
    (id : Int) : calls.count (Call.byID id true) ≤ 1 := by
  induction calls with
  | nil => simp
  | cons c cs ih =>
    rw [List.pairwise_cons] at hp
    by_cases hc : c = Call.byID id true
    · subst hc
      have hnot : Call.byID id true ∉ cs := fun hm => hp.1 _ hm id rfl true rfl
      rw [List.count_cons_self, List.count_eq_zero_of_not_mem hnot]
    · rw [List.count_cons_of_ne (Ne.symm hc)]
      exact ih hp.2

/-! ## The `ByID` calls of one iteration -/

theorem createSession_calls (E : Collab W Ctx Site) (h : Hit) (s : Loop W Ctx Site) :
    (createSession E h s).1.sites = s.sites ∧
      ∃ extra, (createSession E h s).1.calls = s.calls ++ extra ∧
        ∀ c ∈ extra, Call.isByID c = false := by
  unfold createSession
  split
  · rcases hb : E.getOrCreate s.w s.ctx h.Path h.Browser h.RemoteAddr with ⟨w, r⟩
    cases r with
    | error err => exact ⟨rfl, _, rfl, by simp [Call.isByID]⟩
    | ok p => exact ⟨rfl, _, rfl, by simp [Call.isByID]⟩
  · exact ⟨rfl, [], by simp, by simp⟩

theorem persistHit_calls (E : Collab W Ctx Site) (i : Nat) (h : Hit) (s : Loop W Ctx Site) :
    (persistHit E i h s).sites = s.sites ∧
      ∃ extra, (persistHit E i h s).calls = s.calls ++ extra ∧
        ∀ c ∈ extra, Call.isByID c = false := by
  unfold persistHit
  rcases hd : E.defaults s.w s.ctx h with ⟨w1, h1⟩
  dsimp only
  rcases hv : E.validate w1 s.ctx h1 with ⟨w2, e⟩
  cases e with
  | none => exact ⟨rfl, _, rfl, by simp [Call.isByID]⟩
  | some err => exact ⟨rfl, _, rfl, by simp [Call.isByID]⟩

theorem lookupSite_calls (E : Collab W Ctx Site) (h : Hit) (s : Loop W Ctx Site) :
    ∃ extra, (lookupSite E h s).1.calls = s.calls ++ extra ∧
      (∀ id, (lookupSite E h s).1.sites id ≠ none →
        s.sites id ≠ none ∨ Call.byID id true ∈ extra) ∧
      (s.sites h.Site ≠ none → extra = []) ∧
      (s.sites h.Site = none → ∃ rest,
        extra = Call.byID h.Site (E.byID s.w s.ctx h.Site).2.isOk :: rest ∧
        ∀ c ∈ rest, Call.isByID c = false) := by
  unfold lookupSite
  cases hc : s.sites h.Site with
  | some site =>
    exact ⟨[], by simp, fun id hid => Or.inl hid, fun _ => rfl, fun hn => by simp at hn⟩
  | none =>
    rcases hb : E.byID s.w s.ctx h.Site with ⟨w, r⟩
    cases r with
    | error err =>
      refine ⟨_, rfl, fun id hid => Or.inl hid, fun hn => absurd rfl hn, fun _ => ?_⟩
      exact ⟨[Call.logError h err], rfl, by simp [Call.isByID]⟩
    | ok site =>
      refine ⟨_, rfl, ?_, fun hn => absurd rfl hn, fun _ => ?_⟩
      · intro id hid
        by_cases he : id = h.Site
        · right; subst he; simp
        · left
          simpa [Function.update_noteq he] using hid
      · exact ⟨[], rfl, by simp⟩

/-- The calls of one iteration: a `ByID` call is made, first, exactly when
the hit is not spam and its site is not in the cache. -/
theorem body_byID (E : Collab W Ctx Site) (i : Nat) (h : Hit) (s : Loop W Ctx Site) :
    ∃ extra, (body E i h s).calls = s.calls ++ extra ∧
      (∀ id, (body E i h s).sites id ≠ none →
        s.sites id ≠ none ∨ Call.byID id true ∈ extra) ∧
      ((isSpam E h = true ∨ s.sites h.Site ≠ none) → ∀ c ∈ extra, Call.isByID c = false) ∧
      (isSpam E h = false → s.sites h.Site = none → ∃ rest,
        extra = Call.byID h.Site (E.byID s.w s.ctx h.Site).2.isOk :: rest ∧
        ∀ c ∈ rest, Call.isByID c = false) := by
  have hsp := spamHost_parseRef E h
  unfold body
  cases hspam : spamHost E (parseRef E h) with
  | some host =>
    rw [hspam] at hsp
    dsimp only
    refine ⟨[Call.debugf host], rfl, fun id hid => Or.inl hid, fun _ => by simp [Call.isByID],
      fun hns => ?_⟩
    rw [← hsp] at hns
    simp at hns
  | none =>
    rw [hspam] at hsp
    have hns : isSpam E h = false := by rw [← hsp]; rfl
    dsimp only
    obtain ⟨e1, c1, m1, n1, y1⟩ := lookupSite_calls E (parseRef E h) s
    have hsite : (parseRef E h).Site = h.Site := rfl
    rw [hsite] at n1 y1
    rcases hk : lookupSite E (parseRef E h) s with ⟨s1, o1⟩
    rw [hk] at c1 m1
    dsimp only at c1 m1
    have close : ∀ (t : Loop W Ctx Site) (e2 : List Call), t.calls = s1.calls ++ e2 →
        t.sites = s1.sites → (∀ c ∈ e2, Call.isByID c = false) →
        ∃ extra, t.calls = s.calls ++ extra ∧
          (∀ id, t.sites id ≠ none → s.sites id ≠ none ∨ Call.byID id true ∈ extra) ∧
          ((isSpam E h = true ∨ s.sites h.Site ≠ none) →
            ∀ c ∈ extra, Call.isByID c = false) ∧
          (isSpam E h = false → s.sites h.Site = none → ∃ rest,
            extra = Call.byID h.Site (E.byID s.w s.ctx h.Site).2.isOk :: rest ∧
            ∀ c ∈ rest, Call.isByID c = false) := by
      intro t e2 t1 t2 t3
      refine ⟨e1 ++ e2, ?_, ?_, ?_, ?_⟩
      · rw [t1, c1, List.append_assoc]
      · intro id hid
        rw [t2] at hid
        rcases m1 id hid with hm | hm
        · exact Or.inl hm
        · exact Or.inr (List.mem_append_left _ hm)
      · intro hor c hc
        rcases hor with hs1 | hs1
        · rw [hns] at hs1; simp at hs1
        · rw [n1 hs1] at hc
          exact t3 c (by simpa using hc)
      · intro _ hnone
        obtain ⟨rest, y2, y3⟩ := y1 hnone
        refine ⟨rest ++ e2, by rw [y2]; rfl, ?_⟩
        intro c hc
        rcases List.mem_append.1 hc with hc | hc
        · exact y3 c hc
        · exact t3 c hc
    cases o1 with
    | none => exact close s1 [] (by simp) rfl (by simp)
    | some site =>
      dsimp only
      obtain ⟨q1, e2, q2, q3⟩ := createSession_calls E (parseRef E h)
        { s1 with ctx := E.withSite s1.ctx site }
      rcases hq : createSession E (parseRef E h) { s1 with ctx := E.withSite s1.ctx site }
        with ⟨s2, o2⟩
      rw [hq] at q1 q2
      dsimp only at q1 q2
      cases o2 with
      | none => exact close s2 e2 q2 q1 q3
      | some h1 =>
        dsimp only
        obtain ⟨r1, e3, r2, r3⟩ := persistHit_calls E i h1 s2
        refine close _ (e2 ++ e3) ?_ ?_ ?_
        · rw [r2, q2, List.append_assoc]
        · rw [r1, q1]
        · intro c hc
          rcases List.mem_append.1 hc with hc | hc
          · exact q3 c hc
          · exact r3 c hc

theorem loop_calls_append (E : Collab W Ctx Site) (hs : List Hit) :
    ∀ (i : Nat) (s : Loop W Ctx Site), ∃ extra, (loop E i hs s).calls = s.calls ++ extra := by
  induction hs with
  | nil => intro i s; exact ⟨[], by simp [loop]⟩
  | cons h hs ih =>
    intro i s
    obtain ⟨e1, c1, _⟩ := body_byID E i h s
    obtain ⟨e2, c2⟩ := ih (i + 1) (body E i h s)
    exact ⟨e1 ++ e2, by simp only [loop]; rw [c2, c1, List.append_assoc]⟩

/-- Every site in the cache was loaded by a successful `ByID` of this
flush. -/
theorem loop_cache_loaded (E : Collab W Ctx Site) (hs : List Hit) :
    ∀ (i : Nat) (s : Loop W Ctx Site),
      (∀ id, s.sites id ≠ none → Call.byID id true ∈ s.calls) →
      ∀ id, (loop E i hs s).sites id ≠ none → Call.byID id true ∈ (loop E i hs s).calls := by
  induction hs with
  | nil => intro i s hinv; exact hinv
  | cons h hs ih =>
    intro i s hinv
    simp only [loop]
    apply ih
    intro id hid
    obtain ⟨e1, c1, m1, _⟩ := body_byID E i h s
    rw [c1]
    rcases m1 id hid with hm | hm
    · exact List.mem_append_left _ (hinv id hm)
    · exact List.mem_append_right _ hm

/-! ## A session resolver with first-creation-wins -/

theorem specSite_known (E : Collab W Ctx Site)
    (known : W → String × String × String → Option Int) (hf : FirstCreationWins E known)
    (k : Env W Ctx Site) (id : Int) : known (specSite E k id).1.w = known k.w := by
  unfold specSite
  cases hc : k.sites id with
  | some site => rfl
  | none =>
    have hk := hf.byID_keeps k.w k.ctx id
    rcases hb : E.byID k.w k.ctx id with ⟨w, r⟩
    rw [hb] at hk
    cases r <;> exact hk

theorem specValidate_known (E : Collab W Ctx Site)
    (known : W → String × String × String → Option Int) (hf : FirstCreationWins E known)
    (k : Env W Ctx Site) (h : Hit) : known (specValidate E k h).1.w = known k.w := by
  unfold specValidate
  simp only
  rw [hf.validate_keeps, hf.defaults_keeps]

/-- The session step on a hit without session that is given one. -/
theorem specSession_fcw (E : Collab W Ctx Site)
    (known : W → String × String × String → Option Int) (hf : FirstCreationWins E known)
    (k k2 : Env W Ctx Site) (h h1 : Hit) (hn : noSession h = true)
    (hs : specSession E k h = (k2, some h1)) :
    ∃ id, h1.Session = some id ∧ known k2.w (fingerprint h) = some id ∧
      (∀ id0, known k.w (fingerprint h) = some id0 →
        id = id0 ∧ h1.FirstVisit = h.FirstVisit) ∧
      (known k.w (fingerprint h) = none → h1.FirstVisit = true) := by
  unfold specSession at hs
  rw [if_pos hn] at hs
  have hrec := hf.records k.w k.ctx h.Path h.Browser h.RemoteAddr
  have hreuse := hf.reuse k.w k.ctx h.Path h.Browser h.RemoteAddr
  have hfresh := hf.fresh k.w k.ctx h.Path h.Browser h.RemoteAddr
  rcases hg : E.getOrCreate k.w k.ctx h.Path h.Browser h.RemoteAddr with ⟨w, r⟩
  rw [hg] at hs hrec hreuse hfresh
  cases r with
  | error e => simp at hs
  | ok p =>
    rcases p with ⟨id, first⟩
    simp only [Prod.mk.injEq, Option.some.injEq] at hs
    obtain ⟨hk, hh⟩ := hs
    subst hh; subst hk
    refine ⟨id, rfl, hrec id first rfl, ?_, ?_⟩
    · intro id0 h0
      have := hreuse id0 (id, first) h0 rfl
      simp only [Prod.mk.injEq] at this
      obtain ⟨e1, e2⟩ := this
      subst e1; subst e2
      exact ⟨rfl, by simp⟩
    · intro h0
      have := hfresh id first h0 rfl
      subst this
      simp

/-- The session step keeps a session that the resolver holds. -/
theorem specSession_known_some (E : Collab W Ctx Site)
    (known : W → String × String × String → Option Int) (hf : FirstCreationWins E known)
    (k : Env W Ctx Site) (h : Hit) (fp : String × String × String) (id : Int)
    (h0 : known k.w fp = some id) : known (specSession E k h).1.w fp = some id := by
  unfold specSession
  by_cases hn : noSession h = true
  · rw [if_pos hn]
    have hrec := hf.records k.w k.ctx h.Path h.Browser h.RemoteAddr
    have hreuse := hf.reuse k.w k.ctx h.Path h.Browser h.RemoteAddr
    have hoth := hf.others k.w k.ctx h.Path h.Browser h.RemoteAddr fp
    have hfail := hf.failure k.w k.ctx h.Path h.Browser h.RemoteAddr
    rcases hg : E.getOrCreate k.w k.ctx h.Path h.Browser h.RemoteAddr with ⟨w, r⟩
    rw [hg] at hrec hreuse hoth hfail
    cases r with
    | error e =>
      have := hfail e rfl
      simp only at this ⊢
      rw [this]; exact h0
    | ok p =>
      rcases p with ⟨id1, first⟩
      simp only at hoth hrec ⊢
      by_cases hfp : fp = (h.Path, h.Browser, h.RemoteAddr)
      · subst hfp
        have := hreuse id (id1, first) h0 rfl
        simp only [Prod.mk.injEq] at this
        rw [hrec id1 first rfl, this.1]
      · rw [hoth hfp]; exact h0
  · rw [if_neg hn]; exact h0

/-- The session step on a hit with another fingerprint leaves the session
of `fp` as it is. -/
theorem specSession_known_other (E : Collab W Ctx Site)
    (known : W → String × String × String → Option Int) (hf : FirstCreationWins E known)
    (k : Env W Ctx Site) (h : Hit) (fp : String × String × String)
    (hne : fingerprint h ≠ fp) : known (specSession E k h).1.w fp = known k.w fp := by
  unfold specSession
  by_cases hn : noSession h = true
  · rw [if_pos hn]
    have hoth := hf.others k.w k.ctx h.Path h.Browser h.RemoteAddr fp
      (fun e => hne e.symm)
    have hfail := hf.failure k.w k.ctx h.Path h.Browser h.RemoteAddr
    rcases hg : E.getOrCreate k.w k.ctx h.Path h.Browser h.RemoteAddr with ⟨w, r⟩
    rw [hg] at hoth hfail
    cases r with
    | error e =>
      have := hfail e rfl
      simp only at this ⊢
      rw [this]
    | ok p =>
      rcases p with ⟨id1, first⟩
      exact hoth
  · rw [if_neg hn]

theorem specHit_known_some (E : Collab W Ctx Site)
    (known : W → String × String × String → Option Int) (hf : FirstCreationWins E known)
    (k : Env W Ctx Site) (h : Hit) (fp : String × String × String) (id : Int)
    (h0 : known k.w fp = some id) : known (specHit E k h).1.w fp = some id := by
  unfold specHit
  by_cases hsp : isSpam E h = true
  · rw [if_pos hsp]; exact h0
  · rw [if_neg hsp]
    have h1 := specSite_known E known hf k h.Site
    rcases hk : specSite E k h.Site with ⟨k1, o1⟩
    rw [hk] at h1
    simp only at h1
    cases o1 with
    | none => simp only; rw [h1]; exact h0
    | some site =>
      simp only
      have h2 := specSession_known_some E known hf { k1 with ctx := E.withSite k1.ctx site }
        (parseRef E h) fp id (by simp only; rw [h1]; exact h0)
      rcases hq : specSession E { k1 with ctx := E.withSite k1.ctx site } (parseRef E h)
        with ⟨k2, o2⟩
      rw [hq] at h2
      simp only at h2
      cases o2 with
      | none => exact h2
      | some hx =>
        simp only
        rw [specValidate_known E known hf]; exact h2

theorem specHit_known_other (E : Collab W Ctx Site)
    (known : W → String × String × String → Option Int) (hf : FirstCreationWins E known)
    (k : Env W Ctx Site) (h : Hit) (fp : String × String × String)
    (hne : fingerprint h ≠ fp) : known (specHit E k h).1.w fp = known k.w fp := by
  unfold specHit
  by_cases hsp : isSpam E h = true
  · rw [if_pos hsp]
  · rw [if_neg hsp]
    have h1 := specSite_known E known hf k h.Site
    rcases hk : specSite E k h.Site with ⟨k1, o1⟩
    rw [hk] at h1
    simp only at h1
    cases o1 with
    | none => simp only; rw [h1]
    | some site =>
      simp only
      have h2 := specSession_known_other E known hf { k1 with ctx := E.withSite k1.ctx site }
        (parseRef E h) fp hne
      rcases hq : specSession E { k1 with ctx := E.withSite k1.ctx site } (parseRef E h)
        with ⟨k2, o2⟩
      rw [hq] at h2
      simp only at h2
      cases o2 with
      | none => simp only; rw [h2, h1]
      | some hx =>
        simp only
        rw [specValidate_known E known hf, h2, h1]

theorem specBatch_known_some (E : Collab W Ctx Site)
    (known : W → String × String × String → Option Int) (hf : FirstCreationWins E known)
    (fp : String × String × String) (id : Int) (hs : List Hit) :
    ∀ k : Env W Ctx Site, known k.w fp = some id →
      known (specBatch E k hs).1.w fp = some id := by
  induction hs with
  | nil => intro k h0; exact h0
  | cons h hs ih =>
    intro k h0
    simp only [specBatch]
    exact ih _ (specHit_known_some E known hf k h fp id h0)

theorem specBatch_known_other (E : Collab W Ctx Site)
    (known : W → String × String × String → Option Int) (hf : FirstCreationWins E known)
    (fp : String × String × String) (hs : List Hit) :
    ∀ k : Env W Ctx Site, (∀ x ∈ hs, fingerprint x ≠ fp) →
      known (specBatch E k hs).1.w fp = known k.w fp := by
  induction hs with
  | nil => intro k _; rfl
  | cons h hs ih =>
    intro k hne
    simp only [specBatch]
    rw [ih _ (fun x hx => hne x (List.mem_cons_of_mem _ hx)),
      specHit_known_other E known hf k h fp (hne h (List.mem_cons_self _ _))]

/-- One hit without session that is persisted-eligible, under a resolver
with first-creation-wins and a `Defaults` that keeps session and
first-visit. -/
theorem specHit_fcw (E : Collab W Ctx Site)
    (known : W → String × String × String → Option Int) (hf : FirstCreationWins E known)
    (hdef : ∀ w c (x : Hit), (E.defaults w c x).2.Session = x.Session ∧
      (E.defaults w c x).2.FirstVisit = x.FirstVisit)
    (k : Env W Ctx Site) (h h2 : Hit) (hn : noSession h = true)
    (ho : (specHit E k h).2 = some h2) :
    ∃ id, h2.Session = some id ∧ known (specHit E k h).1.w (fingerprint h) = some id ∧
      (∀ id0, known k.w (fingerprint h) = some id0 →
        id = id0 ∧ h2.FirstVisit = h.FirstVisit) ∧
      (known k.w (fingerprint h) = none → h2.FirstVisit = true) := by
  unfold specHit at ho ⊢
  by_cases hsp : isSpam E h = true
  · simp [hsp] at ho
  · simp only [hsp, Bool.false_eq_true, if_false] at ho ⊢
    have h1 := specSite_known E known hf k h.Site
    rcases hk : specSite E k h.Site with ⟨k1, o1⟩
    rw [hk] at ho h1
    simp only at h1
    cases o1 with
    | none => simp at ho
    | some site =>
      simp only at ho ⊢
      rcases hq : specSession E { k1 with ctx := E.withSite k1.ctx site } (parseRef E h)
        with ⟨k2, o2⟩
      rw [hq] at ho
      cases o2 with
      | none => simp at ho
      | some hx =>
        simp only at ho ⊢
        obtain ⟨id, a1, a2, a3, a4⟩ := specSession_fcw E known hf _ k2 (parseRef E h) hx
          (by simpa [noSession, parseRef] using hn) hq
        have hfp : fingerprint (parseRef E h) = fingerprint h := rfl
        have hfv : (parseRef E h).FirstVisit = h.FirstVisit := rfl
        rw [hfp] at a2 a3 a4
        rw [hfv] at a3
        simp only at a3 a4
        rw [h1] at a3 a4
        have hv : h2 = (E.defaults k2.w k2.ctx hx).2 := by
          simp only [specValidate] at ho
          by_cases hc : (E.validate (E.defaults k2.w k2.ctx hx).1 k2.ctx
              (E.defaults k2.w k2.ctx hx).2).2 = none
          · rw [if_pos hc] at ho
            exact (Option.some.inj ho).symm
          · rw [if_neg hc] at ho
            simp at ho
        obtain ⟨d1, d2⟩ := hdef k2.w k2.ctx hx
        refine ⟨id, ?_, ?_, ?_, ?_⟩
        · rw [hv, d1]; exact a1
        · rw [specValidate_known E known hf]; exact a2
        · intro id0 hid
          obtain ⟨e1, e2⟩ := a3 id0 hid
          exact ⟨e1, by rw [hv, d2]; exact e2⟩
        · intro hnone
          rw [hv, d2]; exact a4 hnone

theorem specBatch_getElem_length (E : Collab W Ctx Site) (xs ys : List Hit) (h : Hit)
    (k : Env W Ctx Site) :
    (specBatch E k (xs ++ h :: ys)).2[xs.length]? =
      some (specHit E (specBatch E k xs).1 h).2 := by
  rw [specBatch_append]
  simp only
  rw [List.getElem?_append_right (by rw [specBatch_length])]
  simp [specBatch_length, specBatch]

/-- The example resolver enforces first-creation-wins, with its session
table as the record of the sessions. -/
theorem demo_fcw (e : Option String) :
    FirstCreationWins (demo e) (fun w fp => w.lookup fp) := by
  refine ⟨?_, ?_, ?_, ?_, ?_, ?_, ?_, ?_⟩
  · intro w c p b a id r hk hg
    simp only [demo] at hg
    by_cases hb : b = ""
    · simp [hb] at hg
    · simp only [hb, if_false, hk] at hg
      simpa using hg.symm
  · intro w c p b a id first hk hg
    simp only [demo] at hg
    by_cases hb : b = ""
    · simp [hb] at hg
    · simp only [hb, if_false, hk] at hg
      simp at hg
      exact hg.2
  · intro w c p b a id first hg
    simp only [demo] at hg ⊢
    by_cases hb : b = ""
    · simp [hb] at hg
    · simp only [hb, if_false] at hg ⊢
      cases hk : List.lookup (p, b, a) w with
      | some id0 =>
        rw [hk] at hg
        simp at hg
        simp [hk, hg.1]
      | none =>
        rw [hk] at hg
        simp at hg
        simp [List.lookup_cons, hg.1]
  · intro w c p b a fp hne
    simp only [demo]
    by_cases hb : b = ""
    · simp [hb]
    · simp only [hb, if_false]
      cases hk : List.lookup (p, b, a) w with
      | some id0 => rfl
      | none =>
        have : (fp == (p, b, a)) = false := by simpa using hne
        simp [List.lookup_cons, this]
  · intro w c p b a err hg
    simp only [demo] at hg ⊢
    by_cases hb : b = ""
    · simp [hb]
    · simp only [hb, if_false] at hg ⊢
      cases hk : List.lookup (p, b, a) w with
      | some id0 => rfl
      | none => rw [hk] at hg; simp at hg
  · intro w c id
    simp only [demo]
    by_cases hi : id = 1 <;> simp [hi]
  · intro w c h; rfl
  · intro w c h; rfl

theorem loop_append (E : Collab W Ctx Site) (xs ys : List Hit) :
    ∀ (i : Nat) (s : Loop W Ctx Site),
      loop E i (xs ++ ys) s = loop E (i + xs.length) ys (loop E i xs s) := by
  induction xs with
  | nil => intro i s; rfl
  | cons x xs ih =>
    intro i s
    have hc : (x :: xs) ++ ys = x :: (xs ++ ys) := rfl
    rw [hc]
    simp only [loop, List.length_cons]
    rw [ih]
    congr 1
    omega

/-- A row is added at iteration `i` exactly when the outcome of hit `i` in
the specification is an enriched hit. -/
theorem rowAdded_spec (E : Collab W Ctx Site) (ctx : Ctx) (w : W) (hs : List Hit) (i : Nat)
    (h : Hit) (hi : hs[i]? = some h) :
    ∃ o, (specBatch E (envInit ctx w) hs).2[i]? = some o ∧ rowAdded E ctx w hs i = o.isSome := by
  obtain ⟨hlt, hget⟩ := List.getElem?_eq_some.1 hi
  have hlen : (hs.take i).length = i := by
    rw [List.length_take]; exact Nat.min_eq_left (Nat.le_of_lt hlt)
  have hsplit : hs = hs.take i ++ h :: hs.drop (i + 1) := by
    rw [← hget, ← List.drop_eq_getElem_cons hlt, List.take_append_drop]
  have htake : hs.take (i + 1) = hs.take i ++ [h] := by
    rw [List.take_succ, hi]; rfl
  have hout := specBatch_getElem_length E (hs.take i) (hs.drop (i + 1)) h (envInit ctx w)
  rw [← hsplit, hlen] at hout
  refine ⟨_, hout, ?_⟩
  obtain ⟨l1, _, _⟩ := loop_spec E (hs.take i) 0 (loopInit ctx w hs)
  have henv : (loopInit ctx w hs : Loop W Ctx Site).env = envInit ctx w := rfl
  rw [henv] at l1
  obtain ⟨_, b2, _⟩ := body_spec E i h (loop E 0 (hs.take i) (loopInit ctx w hs))
  rw [l1] at b2
  unfold rowAdded
  rw [htake, loop_append, hlen]
  simp only [Nat.zero_add, loop]
  rw [b2]
  cases (specHit E (specBatch E (envInit ctx w) (hs.take i)).1 h).2 <;> simp

theorem rows_of_added (f : Hit → Row) (g : Nat → Bool) (os : List (Option Hit)) :
    ∀ (hs : List Hit) (j : Nat), os.length = hs.length →
      (∀ i o, os[i]? = some o → g (j + i) = o.isSome) →
      os.reduceOption.map f =
        ((List.zipWith (fun o h => o.getD h) os hs).enumFrom j).filterMap
          (fun p => if g p.1 then some (f p.2) else none) := by
  induction os with
  | nil => intro hs j _ _; simp
  | cons o os ih =>
    intro hs j hl hg
    cases hs with
    | nil => simp at hl
    | cons h hs =>
      have hl2 : os.length = hs.length := by simpa using hl
      have hg0 : g j = o.isSome := by simpa using hg 0 o (by simp)
      have hg2 : ∀ i o1, os[i]? = some o1 → g (j + 1 + i) = o1.isSome := by
        intro i o1 hi
        have := hg (i + 1) o1 (by simpa using hi)
        rw [← this]; congr 1; omega
      have ih2 := ih hs (j + 1) hl2 hg2
      cases o with
      | none =>
        simp only [Option.isSome_none] at hg0
        simp [List.reduceOption_cons_of_none, List.enumFrom, hg0, ih2]
      | some x =>
        simp only [Option.isSome_some] at hg0
        simp [List.reduceOption_cons_of_some, List.enumFrom, hg0, ih2]

theorem stateBefore_succ (E : Collab W Ctx Site) (ctx : Ctx) (w : W) (hs : List Hit)
    (i : Nat) (h : Hit) (hi : hs[i]? = some h) :
    stateBefore E ctx w hs (i + 1) = body E i h (stateBefore E ctx w hs i) := by
  obtain ⟨hlt, _⟩ := List.getElem?_eq_some.1 hi
  have hlen : (hs.take i).length = i := by
    rw [List.length_take]; exact Nat.min_eq_left (Nat.le_of_lt hlt)
  have htake : hs.take (i + 1) = hs.take i ++ [h] := by
    rw [List.take_succ, hi]; rfl
  unfold stateBefore
  rw [htake, loop_append, hlen]
  simp only [Nat.zero_add, loop]

theorem stateBefore_inv (E : Collab W Ctx Site) (ctx : Ctx) (w : W) (hs : List Hit)
    (i : Nat) (id : Int) :
    Call.byID id true ∈ (stateBefore E ctx w hs i).calls ↔
      (stateBefore E ctx w hs i).sites id ≠ none := by
  have h0 : SiteInv (loopInit ctx w hs : Loop W Ctx Site).sites
      (loopInit ctx w hs : Loop W Ctx Site).calls := by
    refine ⟨by simp [loopInit], ?_⟩
    intro id hm
    simp [loopInit] at hm
  constructor
  · exact (loop_inv E (hs.take i) 0 _ h0).2 id
  · refine loop_cache_loaded E (hs.take i) 0 _ ?_ id
    intro id hid
    simp [loopInit] at hid

theorem Persist_calls_split (E : Collab W Ctx Site) (ctx : Ctx) (w : W) (m : ms) (i : Nat)
    (h : Hit) (hi : m.hits[i]? = some h) :
    ∃ later, (m.Persist E ctx w).calls =
      (stateBefore E ctx w m.hits i).calls ++ callsIn E ctx w m.hits i ++ later := by
  obtain ⟨hlt, _⟩ := List.getElem?_eq_some.1 hi
  have hlen : ¬ m.Len = 0 := by
    unfold ms.Len; omega
  obtain ⟨e1, c1, _⟩ := body_byID E i h (stateBefore E ctx w m.hits i)
  have hs1 := stateBefore_succ E ctx w m.hits i h hi
  have hin : callsIn E ctx w m.hits i = e1 := by
    unfold callsIn
    rw [hs1, c1, List.drop_left]
  have hsplit : loop E 0 m.hits (loopInit ctx w m.hits) =
      loop E (0 + (m.hits.take (i + 1)).length) (m.hits.drop (i + 1))
        (stateBefore E ctx w m.hits (i + 1)) := by
    unfold stateBefore
    rw [← loop_append, List.take_append_drop]
  obtain ⟨e2, c2⟩ := loop_calls_append E (m.hits.drop (i + 1))
    (0 + (m.hits.take (i + 1)).length) (stateBefore E ctx w m.hits (i + 1))
  refine ⟨e2 ++ [Call.finish], ?_⟩
  have hp : (m.Persist E ctx w).calls =
      (loop E 0 m.hits (loopInit ctx w m.hits)).calls ++ [Call.finish] := by
    simp [ms.Persist, hlen]
  rw [hp, hsplit, c2, hs1, c1, hin]
  simp

/-! ## The slot and the row of one iteration -/

theorem createSession_some (E : Collab W Ctx Site) (h h1 : Hit) (s s2 : Loop W Ctx Site)
    (hc : createSession E h s = (s2, some h1)) :
    s2.ctx = s.ctx ∧
      (¬ (h.Session = none ∨ h.Session = some 0) → s2.w = s.w ∧ h1 = h) ∧
      ((h.Session = none ∨ h.Session = some 0) → ∃ id first,
        E.getOrCreate s.w s.ctx h.Path h.Browser h.RemoteAddr = (s2.w, Except.ok (id, first)) ∧
        h1 = { h with Session := some id,
                      FirstVisit := if first then true else h.FirstVisit }) := by
  unfold createSession at hc
  by_cases hu : h.Session = none ∨ h.Session = some 0
  · rw [if_pos hu] at hc
    rcases hg : E.getOrCreate s.w s.ctx h.Path h.Browser h.RemoteAddr with ⟨w, r⟩
    rw [hg] at hc
    cases r with
    | error err => simp at hc
    | ok p =>
      rcases p with ⟨id, first⟩
      simp only [Prod.mk.injEq, Option.some.injEq] at hc
      obtain ⟨e1, e2⟩ := hc
      subst e1; subst e2
      exact ⟨rfl, fun hn => absurd hu hn, fun _ => ⟨id, first, rfl, rfl⟩⟩
  · rw [if_neg hu] at hc
    simp only [Prod.mk.injEq, Option.some.injEq] at hc
    obtain ⟨e1, e2⟩ := hc
    subst e1; subst e2
    exact ⟨rfl, fun _ => ⟨rfl, rfl⟩, fun hy => absurd hy hu⟩

/-- One iteration either writes the slot and adds the row of the hit that
`Defaults` returned and `Validate` accepted, or leaves slots and rows
alone. -/
theorem body_cases (E : Collab W Ctx Site) (i : Nat) (h : Hit) (s : Loop W Ctx Site) :
    (∃ s1 site s2 h1, lookupSite E (parseRef E h) s = (s1, some site) ∧
        createSession E (parseRef E h) { s1 with ctx := E.withSite s1.ctx site } =
          (s2, some h1) ∧
        (E.validate (E.defaults s2.w s2.ctx h1).1 s2.ctx (E.defaults s2.w s2.ctx h1).2).2 =
          none ∧
        (body E i h s).hits = s.hits.set i (E.defaults s2.w s2.ctx h1).2 ∧
        (body E i h s).rows = s.rows ++ [rowOf E (E.defaults s2.w s2.ctx h1).2]) ∨
      ((body E i h s).hits = s.hits ∧ (body E i h s).rows = s.rows) := by
  unfold body
  cases hspam : spamHost E (parseRef E h) with
  | some host => right; exact ⟨rfl, rfl⟩
  | none =>
    dsimp only
    obtain ⟨_, _, l3, l4⟩ := lookupSite_spec E (parseRef E h) s
    rcases hk : lookupSite E (parseRef E h) s with ⟨s1, o1⟩
    rw [hk] at l3 l4
    dsimp only at l3 l4
    cases o1 with
    | none => right; exact ⟨l3, l4⟩
    | some site =>
      dsimp only
      obtain ⟨_, _, c3, c4⟩ := createSession_spec E (parseRef E h)
        { s1 with ctx := E.withSite s1.ctx site }
      rcases hq : createSession E (parseRef E h) { s1 with ctx := E.withSite s1.ctx site }
        with ⟨s2, o2⟩
      rw [hq] at c3 c4
      dsimp only at c3 c4
      cases o2 with
      | none => right; exact ⟨by rw [c3, l3], by rw [c4, l4]⟩
      | some h1 =>
        dsimp only
        unfold persistHit
        rcases hv : E.validate (E.defaults s2.w s2.ctx h1).1 s2.ctx
          (E.defaults s2.w s2.ctx h1).2 with ⟨w2, e⟩
        cases e with
        | some err =>
          right
          simp only [hv]
          exact ⟨by rw [c3, l3], by rw [c4, l4]⟩
        | none =>
          left
          refine ⟨s1, site, s2, h1, rfl, hq, by rw [hv], ?_, ?_⟩
          · simp only [hv]; rw [c3, l3]
          · simp only [hv]; rw [c4, l4]

theorem writeBackAll_length (os : List (Option Hit)) :
    ∀ (i : Nat) (hits : List Hit), (writeBackAll i hits os).length = hits.length := by
  induction os with
  | nil => intro i hits; rfl
  | cons o os ih =>
    intro i hits
    simp only [writeBackAll]
    rw [ih]
    cases o <;> simp [writeBack]

theorem stateBefore_spec (E : Collab W Ctx Site) (ctx : Ctx) (w : W) (hs : List Hit)
    (i : Nat) (h : Hit) (hi : hs[i]? = some h) :
    (specBatch E (envInit ctx w) hs).2[i]? =
        some (specHit E (stateBefore E ctx w hs i).env h).2 ∧
      (stateBefore E ctx w hs i).hits.length = hs.length := by
  obtain ⟨hlt, hget⟩ := List.getElem?_eq_some.1 hi
  have hlen : (hs.take i).length = i := by
    rw [List.length_take]; exact Nat.min_eq_left (Nat.le_of_lt hlt)
  have hsplit : hs = hs.take i ++ h :: hs.drop (i + 1) := by
    rw [← hget, ← List.drop_eq_getElem_cons hlt, List.take_append_drop]
  have hout := specBatch_getElem_length E (hs.take i) (hs.drop (i + 1)) h (envInit ctx w)
  rw [← hsplit, hlen] at hout
  obtain ⟨l1, _, l3⟩ := loop_spec E (hs.take i) 0 (loopInit ctx w hs)
  have henv : (loopInit ctx w hs : Loop W Ctx Site).env = envInit ctx w := rfl
  rw [henv] at l1
  unfold stateBefore
  refine ⟨by rw [l1]; exact hout, ?_⟩
  rw [l3, writeBackAll_length]; rfl

/-! ## Properties of the buffer and the flush -/

/-- C1: for calls of `Append` and `Persist` executed one after another on a
buffer that starts empty, the copies drained by the `Persist` calls, in call
order, followed by what is left in the buffer, are the `Append` arguments in
call order; and every `Persist` on a buffer of `n > 0` hits drains all of
them, returns exactly `n` hits and leaves the buffer empty, whatever the
collaborators `E` do. -/
theorem C1_no_hit_lost_or_duplicated (E : Collab W Ctx Site) (w : W) (ops : List (Op Ctx)) :
    (run E ops { m := { hits := [] }, w := w, snapshots := [] }).snapshots.flatten ++
        (run E ops { m := { hits := [] }, w := w, snapshots := [] }).m.hits = appended ops ∧
      ∀ (ctx : Ctx) (w1 : W) (m : ms), 0 < m.Len →
        (m.Persist E ctx w1).drained = m.hits ∧
        (∃ hs, (m.Persist E ctx w1).hits = some hs ∧ hs.length = m.Len) ∧
        (m.Persist E ctx w1).m.hits = [] := by
  refine ⟨?_, ?_⟩
  · rw [run_invariant]; simp
  · intro ctx w1 m hpos
    exact ⟨(Persist_drains E ctx w1 m).1, Persist_hits_length E ctx w1 m hpos,
      (Persist_drains E ctx w1 m).2⟩

/-- C1 at a concrete input: a flush of the three example hits returns three
hits and empties the buffer. -/
theorem C1_no_hit_lost_or_duplicated_witness :
    0 < (ms.mk threeHits).Len ∧
      (∃ hs, ((ms.mk threeHits).Persist (demo none) none []).hits = some hs ∧
        hs.length = (ms.mk threeHits).Len) ∧
      ((ms.mk threeHits).Persist (demo none) none []).m.hits = [] :=
  ⟨by decide,
    ((C1_no_hit_lost_or_duplicated (demo none) [] []).2 none [] (ms.mk threeHits)
      (by decide)).2⟩

/-- C2: `Append(hs...)` on a buffer holding `b` leaves `b` followed by `hs`
in the order given, the old hits unchanged and first, so `Len()` is
`len(b) + len(hs)`; with no argument the buffer is unchanged. -/
theorem C2_append_extends_buffer (b hs : List Hit) :
    (ms.Append { hits := b } hs).hits = b ++ hs ∧
      (ms.Append { hits := b } hs).hits.take b.length = b ∧
      (ms.Append { hits := b } hs).hits.drop b.length = hs ∧
      (ms.Append { hits := b } hs).Len = (ms.mk b).Len + hs.length ∧
      (ms.mk b).Len = b.length ∧
      ms.Append { hits := b } [] = { hits := b } := by
  simp [ms.Append, ms.Len]

/-- C3: `Persist` on an empty buffer returns `(nil, nil)`, leaves the buffer
empty and makes no external call: the call log is empty, the world is
untouched and the bulk inserter gets no row. -/
theorem C3_persist_empty_is_noop (E : Collab W Ctx Site) (ctx : Ctx) (w : W) :
    (ms.Persist E ctx w { hits := [] }).hits = none ∧
      (ms.Persist E ctx w { hits := [] }).err = none ∧
      (ms.Persist E ctx w { hits := [] }).m.hits = [] ∧
      (ms.Persist E ctx w { hits := [] }).calls = [] ∧
      (ms.Persist E ctx w { hits := [] }).w = w ∧
      (ms.Persist E ctx w { hits := [] }).rows = [] := by
  rw [Persist_empty]
  exact ⟨rfl, rfl, rfl, rfl, rfl, rfl⟩

/-- C4: the rows handed to the bulk inserter are, in the order of the
drained hits, one row per hit that is persisted-eligible, namely a hit (1)
whose referrer does not parse or has a host outside the spam set, (2) whose
site resolves, (3) that has a non-zero session or gets one from the
resolver, and (4) that passes validation after defaulting; the other hits
contribute `none` and leave the rows of the rest in place. On the three
example hits (spam referrer, unparseable referrer, clean) exactly the last
two give a row. -/
theorem C4_rows_are_the_eligible_hits :
    (∀ (W Ctx Site : Type) (E : Collab W Ctx Site) (ctx : Ctx) (w : W) (m : ms),
      (m.Persist E ctx w).rows =
        (specBatch E (envInit ctx w) m.hits).2.reduceOption.map (rowOf E)) ∧
    (∀ (W Ctx Site : Type) (E : Collab W Ctx Site) (k : Env W Ctx Site) (h : Hit),
      ((specHit E k h).2.isSome ↔
        (E.parse h.Ref = none ∨ ∃ u, E.parse h.Ref = some u ∧ u.Host ∉ E.refspam) ∧
        ∃ k1 site, specSite E k h.Site = (k1, some site) ∧
        ∃ k2 h1, specSession E { k1 with ctx := E.withSite k1.ctx site } (parseRef E h) =
            (k2, some h1) ∧
          (E.validate (E.defaults k2.w k2.ctx h1).1 k2.ctx (E.defaults k2.w k2.ctx h1).2).2 =
            none)) ∧
    ((ms.mk threeHits).Persist (demo none) none []).rows.length = 2 ∧
    ((ms.mk threeHits).Persist (demo none) none []).rows.map (fun r => r.path) =
      ["/b", "/c"] := by
  refine ⟨fun W Ctx Site E ctx w m => Persist_rows E ctx w m, ?_, by decide, by decide⟩
  intro W Ctx Site E k h
  have hsp : isSpam E h = false ↔
      (E.parse h.Ref = none ∨ ∃ u, E.parse h.Ref = some u ∧ u.Host ∉ E.refspam) := by
    unfold isSpam
    cases E.parse h.Ref with
    | none => simp
    | some u => simp
  rw [← hsp]
  unfold specHit
  by_cases hs : isSpam E h = true
  · simp [hs]
  · simp only [hs, Bool.false_eq_true, if_false]
    have hs2 : isSpam E h = false := by simpa using hs
    simp only [hs2, true_and]
    rcases hk : specSite E k h.Site with ⟨k1, o1⟩
    cases o1 with
    | none => simp
    | some site =>
      simp only
      rcases hq : specSession E { k1 with ctx := E.withSite k1.ctx site } (parseRef E h)
        with ⟨k2, o2⟩
      cases o2 with
      | none => simp [hq]
      | some h1 =>
        simp only [specValidate]
        constructor
        · intro hv
          refine ⟨k1, site, rfl, k2, h1, hq, ?_⟩
          by_contra hc
          simp [hc] at hv
        · rintro ⟨k1b, siteb, e1, k2b, h1b, e2, e3⟩
          simp only [Prod.mk.injEq, Option.some.injEq] at e1
          obtain ⟨e1a, e1b⟩ := e1
          subst e1a; subst e1b
          rw [hq] at e2
          simp only [Prod.mk.injEq, Option.some.injEq] at e2
          obtain ⟨e2a, e2b⟩ := e2
          subst e2a; subst e2b
          simp [e3]

/-- C7: on a non-empty buffer the error returned by `Persist` is the error
returned by `Finish` after the loop, whatever happened to the single hits,
and the returned sequence has the full length of the drained buffer. -/
theorem C7_error_is_finish_error (E : Collab W Ctx Site) (ctx : Ctx) (w : W) (m : ms)
    (hpos : 0 < m.Len) :
    (m.Persist E ctx w).err =
        (E.finish (loop E 0 m.hits (loopInit ctx w m.hits)).w
          (loop E 0 m.hits (loopInit ctx w m.hits)).rows).2 ∧
      ((m.Persist E ctx w).err = none ↔
        (E.finish (loop E 0 m.hits (loopInit ctx w m.hits)).w
          (m.Persist E ctx w).rows).2 = none) ∧
      ∃ hs, (m.Persist E ctx w).hits = some hs ∧ hs.length = m.Len := by
  have hlen : ¬ m.Len = 0 := by omega
  have herr : (m.Persist E ctx w).err =
      (E.finish (loop E 0 m.hits (loopInit ctx w m.hits)).w
        (loop E 0 m.hits (loopInit ctx w m.hits)).rows).2 := by
    simp [ms.Persist, hlen]
  have hrows : (m.Persist E ctx w).rows = (loop E 0 m.hits (loopInit ctx w m.hits)).rows := by
    simp [ms.Persist, hlen]
  refine ⟨herr, ?_, Persist_hits_length E ctx w m hpos⟩
  rw [herr, hrows]

/-- C7 at concrete inputs: five valid hits and a failing `Finish` give the
error of `Finish` and five rows; three skipped hits and a successful `Finish`
give a nil error and no row. -/
theorem C7_error_is_finish_error_witness :
    0 < (ms.mk fiveHits).Len ∧
      ((ms.mk fiveHits).Persist (demo (some "db down")) none []).err = some "db down" ∧
      ((ms.mk fiveHits).Persist (demo (some "db down")) none []).rows.length = 5 ∧
      ((ms.mk skippedHits).Persist (demo none) none []).err = none ∧
      ((ms.mk skippedHits).Persist (demo none) none []).rows = [] :=
  ⟨by decide,
    (C7_error_is_finish_error (demo (some "db down")) none [] (ms.mk fiveHits)
      (by decide)).1.trans (by decide),
    by decide,
    (C7_error_is_finish_error (demo none) none [] (ms.mk skippedHits)
      (by decide)).1.trans (by decide),
    by decide⟩

/-- C8: on a non-empty buffer the returned sequence has one slot per
drained hit. When hit `i` was skipped (no row added at iteration `i`), slot
`i` holds the hit exactly as it was drained. When hit `i` went to the bulk
inserter, slot `i` holds the enriched hit: the result of `Defaults`, in the
context of the resolved site, on the drained hit with the parsed referrer
URL and, if its session was nil or 0, the session of the resolver and
first-visit set when the resolver reported a new session (a hit with a
non-zero session keeps session and first-visit); `Validate` accepted it.
The rows are, in order, made of the field values of the slots that were
written: each column is the field of the slot, the creation time
formatted. -/
theorem C8_returned_slots (E : Collab W Ctx Site) (ctx : Ctx) (w : W) (m : ms)
    (hne : m.hits ≠ []) :
    ∃ ret, (m.Persist E ctx w).hits = some ret ∧ ret.length = m.hits.length ∧
      (m.Persist E ctx w).rows =
        ret.enum.filterMap
          (fun p => if rowAdded E ctx w m.hits p.1 then
            some ({ site := p.2.Site, path := p.2.Path, ref := p.2.Ref,
                    ref_scheme := p.2.RefScheme, browser := p.2.Browser, size := p.2.Size,
                    location := p.2.Location, created_at := E.formatDate p.2.CreatedAt,
                    bot := p.2.Bot, title := p.2.Title, event := p.2.Event,
                    session := p.2.Session, first_visit := p.2.FirstVisit } : Row)
            else none) ∧
      ∀ (i : Nat) (h : Hit), m.hits[i]? = some h →
        (rowAdded E ctx w m.hits i = false ∧ ret[i]? = some h) ∨
        (rowAdded E ctx w m.hits i = true ∧
          ∃ s1 site w1 h1,
            lookupSite E (parseRef E h) (stateBefore E ctx w m.hits i) = (s1, some site) ∧
            (¬ (h.Session = none ∨ h.Session = some 0) →
              w1 = s1.w ∧ h1 = { h with RefURL := E.parse h.Ref }) ∧
            ((h.Session = none ∨ h.Session = some 0) → ∃ id first,
              E.getOrCreate s1.w (E.withSite s1.ctx site) h.Path h.Browser h.RemoteAddr =
                (w1, Except.ok (id, first)) ∧
              h1 = { h with RefURL := E.parse h.Ref, Session := some id,
                            FirstVisit := if first then true else h.FirstVisit }) ∧
            (E.validate (E.defaults w1 (E.withSite s1.ctx site) h1).1 (E.withSite s1.ctx site)
              (E.defaults w1 (E.withSite s1.ctx site) h1).2).2 = none ∧
            ret[i]? = some (E.defaults w1 (E.withSite s1.ctx site) h1).2) := by
  obtain ⟨p1, p2, _, _, _⟩ := Persist_spec E ctx w m hne
  have hl := specBatch_length E m.hits (envInit ctx w)
  refine ⟨_, p2, by simp [List.length_zipWith, hl], ?_, ?_⟩
  · rw [p1]
    refine rows_of_added (rowOf E) (rowAdded E ctx w m.hits) _ m.hits 0 hl ?_
    intro i o ho
    have hlt : i < m.hits.length := by
      rw [← hl]; exact (List.getElem?_eq_some.1 ho).1
    obtain ⟨o2, e1, e2⟩ := rowAdded_spec E ctx w m.hits i _ (List.getElem?_eq_getElem hlt)
    rw [ho] at e1
    rw [Nat.zero_add, e2, Option.some.inj e1]
  · intro i h hi
    obtain ⟨ho, hlen⟩ := stateBefore_spec E ctx w m.hits i h hi
    have hlt : i < (stateBefore E ctx w m.hits i).hits.length := by
      rw [hlen]; exact (List.getElem?_eq_some.1 hi).1
    have hra : rowAdded E ctx w m.hits i =
        decide ((body E i h (stateBefore E ctx w m.hits i)).rows.length =
          (stateBefore E ctx w m.hits i).rows.length + 1) := by
      rw [← stateBefore_succ E ctx w m.hits i h hi]; rfl
    obtain ⟨_, b2, b3⟩ := body_spec E i h (stateBefore E ctx w m.hits i)
    rcases body_cases E i h (stateBefore E ctx w m.hits i) with
      ⟨s1, site, s2, h1, k1, k2, k3, k4, k5⟩ | ⟨k4, k5⟩
    · right
      have hadd : rowAdded E ctx w m.hits i = true := by
        rw [hra, k5]; simp
      have hout : (specHit E (stateBefore E ctx w m.hits i).env h).2 =
          some (E.defaults s2.w s2.ctx h1).2 := by
        cases hc : (specHit E (stateBefore E ctx w m.hits i).env h).2 with
        | none =>
          rw [hc, k5] at b2
          simp at b2
        | some x =>
          rw [hc, k4] at b3
          have hx := congrArg (fun l : List Hit => l[i]?) b3
          simp only [writeBack, List.getElem?_set, if_pos hlt, if_true] at hx
          rw [← Option.some.inj hx]
      rw [hout] at ho
      obtain ⟨q1, q2, q3⟩ := createSession_some E (parseRef E h) h1 _ s2 k2
      dsimp only at q1
      rw [q1] at hout k3 ho
      refine ⟨hadd, s1, site, s2.w, h1, k1, ?_, ?_, k3, ?_⟩
      · intro hn
        exact q2 hn
      · intro hy
        exact q3 hy
      · rw [List.getElem?_zipWith, ho, hi]; rfl
    · left
      have hadd : rowAdded E ctx w m.hits i = false := by
        rw [hra, k5]; simp
      have hout : (specHit E (stateBefore E ctx w m.hits i).env h).2 = none := by
        cases hc : (specHit E (stateBefore E ctx w m.hits i).env h).2 with
        | none => rfl
        | some x =>
          rw [hc, k5] at b2
          simp at b2
      rw [hout] at ho
      refine ⟨hadd, ?_⟩
      rw [List.getElem?_zipWith, ho, hi]; rfl

/-- C8 on the three example hits: the spam hit comes back as drained, the
other two slots hold the hits with their new sessions, and the two rows
carry the fields of those two slots. -/
theorem C8_returned_slots_witness :
    threeHits ≠ [] ∧
      (∃ ret, ((ms.mk threeHits).Persist (demo none) none []).hits = some ret ∧
        ret.length = (ms.mk threeHits).hits.length) ∧
      (((ms.mk threeHits).Persist (demo none) none []).hits.getD [])[0]? = threeHits[0]? ∧
      (((ms.mk threeHits).Persist (demo none) none []).hits.getD []).map
        (fun h => (h.Path, h.Session, h.FirstVisit)) =
          [("/a", none, false), ("/b", some 1, true), ("/c", some 2, true)] ∧
      ((ms.mk threeHits).Persist (demo none) none []).rows.map
        (fun r => (r.path, r.session, r.first_visit)) =
          [("/b", some 1, true), ("/c", some 2, true)] :=
  ⟨by decide,
    (C8_returned_slots (demo none) none [] (ms.mk threeHits) (by decide)).elim
      (fun ret hr => ⟨ret, hr.1, hr.2.1⟩),
    by decide, by decide, by decide⟩

/-- C5, as the code has it: a hit whose parsed referrer host is in the spam
set gives no row to the bulk inserter, the rows are those of the batch
without it, and it stays in the returned sequence, at its own slot, exactly
as it was drained. -/
theorem C5_spam_hit_gets_no_row (E : Collab W Ctx Site) (ctx : Ctx) (w : W)
    (before after : List Hit) (h : Hit) (hspam : isSpam E h = true) :
    (ms.Persist E ctx w { hits := before ++ h :: after }).rows =
        (ms.Persist E ctx w { hits := before ++ after }).rows ∧
      rowAdded E ctx w (before ++ h :: after) before.length = false ∧
      ∃ ret, (ms.Persist E ctx w { hits := before ++ h :: after }).hits = some ret ∧
        ret.length = before.length + 1 + after.length ∧ ret[before.length]? = some h := by
  have hout : (specBatch E (envInit ctx w) (before ++ h :: after)).2[before.length]? =
      some none := by
    rw [specBatch_append]
    simp only
    rw [List.getElem?_append_right (by rw [specBatch_length])]
    simp [specBatch_length, specBatch, specHit_spam E _ h hspam]
  have hh : (before ++ h :: after)[before.length]? = some h := by
    rw [List.getElem?_append_right (Nat.le_refl _)]; simp
  have hadd : rowAdded E ctx w (before ++ h :: after) before.length = false := by
    obtain ⟨o, ho, e⟩ := rowAdded_spec E ctx w _ _ h hh
    rw [hout] at ho
    rw [e, ← Option.some.inj ho]; rfl
  refine ⟨?_, hadd, ?_⟩
  · rw [Persist_rows, Persist_rows, specBatch_append, specBatch_append]
    simp [specBatch, specHit_spam E _ h hspam, List.reduceOption_append,
      List.reduceOption_cons_of_none]
  · obtain ⟨_, p2, _⟩ := Persist_spec E ctx w { hits := before ++ h :: after } (by simp)
    refine ⟨_, p2, ?_, ?_⟩
    · simp [List.length_zipWith, specBatch_length]; omega
    · rw [List.getElem?_zipWith, hout]
      simp only [hh]
      rfl

/-- C5 fails as stated: the first of the three example hits has a spam
referrer and is still in the sequence returned by `Persist`. -/
theorem C5_counterexample :
    (((ms.mk threeHits).Persist (demo none) none []).hits.getD []).any
        (fun h => isSpam (demo none) h) = true ∧
      (((ms.mk threeHits).Persist (demo none) none []).hits.getD []).length = 3 := by
  decide

/-- C5 on the three example hits: the spam hit is first, the two rows are
those of the batch without it. -/
theorem C5_spam_hit_gets_no_row_witness :
    isSpam (demo none) (hit 1 "/a" "spam.example" "firefox") = true ∧
      (ms.Persist (demo none) none [] { hits := threeHits }).rows =
        (ms.Persist (demo none) none []
          { hits := [hit 1 "/b" "%zz" "firefox", hit 1 "/c" "" "firefox"] }).rows :=
  ⟨by decide,
    (C5_spam_hit_gets_no_row (demo none) none [] [] [hit 1 "/b" "%zz" "firefox",
      hit 1 "/c" "" "firefox"] (hit 1 "/a" "spam.example" "firefox") (by decide)).1⟩

/-- C6, as the code has it: within one `Persist` call, the iteration of a
hit makes a `site.ByID` call, for the site identifier of the hit and before
any other call, exactly when the hit is not a spam hit and no earlier `ByID`
call of this flush for that identifier has succeeded; otherwise it makes no
`ByID` call. So once `ByID` has succeeded for an identifier it is not called
again for it, and each identifier is loaded with success at most once; a
failed `ByID` is not cached: the next hit with that identifier that is not
spam calls `ByID` again. -/
theorem C6_site_not_reloaded_after_success (E : Collab W Ctx Site) (ctx : Ctx) (w : W)
    (m : ms) :
    (m.Persist E ctx w).calls.Pairwise
        (fun c d => ∀ id : Int, c = Call.byID id true → ∀ ok : Bool, d ≠ Call.byID id ok) ∧
      (∀ id : Int, (m.Persist E ctx w).calls.count (Call.byID id true) ≤ 1) ∧
      ∀ (i : Nat) (h : Hit), m.hits[i]? = some h →
        (∃ later, (m.Persist E ctx w).calls =
          (stateBefore E ctx w m.hits i).calls ++ callsIn E ctx w m.hits i ++ later) ∧
        ((isSpam E h = true ∨ Call.byID h.Site true ∈ (stateBefore E ctx w m.hits i).calls) →
          ∀ c ∈ callsIn E ctx w m.hits i, ∀ id ok, c ≠ Call.byID id ok) ∧
        (isSpam E h = false → Call.byID h.Site true ∉ (stateBefore E ctx w m.hits i).calls →
          ∃ rest, callsIn E ctx w m.hits i =
              Call.byID h.Site
                (E.byID (stateBefore E ctx w m.hits i).w (stateBefore E ctx w m.hits i).ctx
                  h.Site).2.isOk :: rest ∧
            ∀ c ∈ rest, ∀ id ok, c ≠ Call.byID id ok) := by
  refine ⟨Persist_noReload E ctx w m,
    fun id => count_le_one_of_noReload _ (Persist_noReload E ctx w m) id, ?_⟩
  intro i h hi
  have hno : ∀ (l : List Call), (∀ c ∈ l, Call.isByID c = false) →
      ∀ c ∈ l, ∀ id ok, c ≠ Call.byID id ok := by
    intro l hl c hc id ok he
    have := hl c hc
    rw [he] at this
    simp [Call.isByID] at this
  obtain ⟨e1, c1, _, n1, y1⟩ := body_byID E i h (stateBefore E ctx w m.hits i)
  have hin : callsIn E ctx w m.hits i = e1 := by
    unfold callsIn
    rw [stateBefore_succ E ctx w m.hits i h hi, c1, List.drop_left]
  have hinv := stateBefore_inv E ctx w m.hits i h.Site
  refine ⟨Persist_calls_split E ctx w m i h hi, ?_, ?_⟩
  · intro hor
    rw [hin]
    apply hno
    apply n1
    rcases hor with hs1 | hs1
    · exact Or.inl hs1
    · exact Or.inr (hinv.1 hs1)
  · intro hns hnot
    have hnone : (stateBefore E ctx w m.hits i).sites h.Site = none := by
      by_contra hc
      exact hnot (hinv.2 hc)
    obtain ⟨rest, y2, y3⟩ := y1 hns hnone
    exact ⟨rest, by rw [hin, y2], hno rest y3⟩

/-- C6 on two hits of the unknown site 2: the first `ByID` fails, and the
iteration of the second hit calls `ByID` for site 2 again, first. -/
theorem C6_site_not_reloaded_after_success_witness :
    isSpam (demo none) (hit 2 "/b" "" "firefox") = false ∧
      Call.byID 2 true ∉ (stateBefore (demo none) none []
        [hit 2 "/a" "" "firefox", hit 2 "/b" "" "firefox"] 1).calls ∧
      Call.byID 2 false ∈ (stateBefore (demo none) none []
        [hit 2 "/a" "" "firefox", hit 2 "/b" "" "firefox"] 1).calls ∧
      ∃ rest, callsIn (demo none) none []
          [hit 2 "/a" "" "firefox", hit 2 "/b" "" "firefox"] 1 = Call.byID 2 false :: rest ∧
        ∀ c ∈ rest, ∀ id ok, c ≠ Call.byID id ok :=
  ⟨by decide, by decide, by decide,
    ((C6_site_not_reloaded_after_success (demo none) none []
      (ms.mk [hit 2 "/a" "" "firefox", hit 2 "/b" "" "firefox"])).2.2 1
      (hit 2 "/b" "" "firefox") rfl).2.2 (by decide) (by decide)⟩

/-- C6 fails as stated: two hits of the unknown site 2 make `Persist` call
`site.ByID` for site 2 twice, since the failed lookup is not cached. -/
theorem C6_counterexample :
    ((ms.mk [hit 2 "/a" "" "firefox", hit 2 "/b" "" "firefox"]).Persist
        (demo none) none []).calls.count (Call.byID 2 false) = 2 ∧
      ¬ ((ms.mk [hit 2 "/a" "" "firefox", hit 2 "/b" "" "firefox"]).Persist
        (demo none) none []).calls.countP (fun c => c.isByID) ≤ 1 := by
  decide

/-- C9, as the code has it: the session step on a hit `h` that passed the
spam and site steps. The resolver is called, with the path, browser and
remote address of the hit, exactly when the session is nil or points to 0; a
hit with a non-zero session goes on unchanged; when the resolver succeeds the
session becomes the returned identifier and first-visit becomes true if the
resolver reports a new session; when it fails the hit is skipped. Every row
given to the bulk inserter carries the session that `Defaults` returned for
a hit whose session was non-nil when `Defaults` was called on it; so the
session of every row is non-nil when `Defaults` does not clear a session,
`Persist` not looking at the session again after `Defaults`. -/
theorem C9_session_step (E : Collab W Ctx Site) (h : Hit) (s : Loop W Ctx Site) :
    (¬ (h.Session = none ∨ h.Session = some 0) → createSession E h s = (s, some h)) ∧
    ((h.Session = none ∨ h.Session = some 0) →
      (∀ w id first,
        E.getOrCreate s.w s.ctx h.Path h.Browser h.RemoteAddr = (w, Except.ok (id, first)) →
        createSession E h s =
          ({ s with w := w,
                    calls := s.calls ++ [Call.getOrCreate h.Path h.Browser h.RemoteAddr] },
            some { h with Session := some id,
                          FirstVisit := if first then true else h.FirstVisit })) ∧
      (∀ w err,
        E.getOrCreate s.w s.ctx h.Path h.Browser h.RemoteAddr = (w, Except.error err) →
        createSession E h s =
          ({ s with w := w,
                    calls := s.calls ++ [Call.getOrCreate h.Path h.Browser h.RemoteAddr,
                      Call.logError h err] }, none))) ∧
    ((h.Session = none ∨ h.Session = some 0) ↔
      Call.getOrCreate h.Path h.Browser h.RemoteAddr ∈
        (createSession E h s).1.calls.drop s.calls.length) ∧
    (∀ c ∈ (createSession E h s).1.calls.drop s.calls.length,
      ∀ p b a, c = Call.getOrCreate p b a → (p, b, a) = (h.Path, h.Browser, h.RemoteAddr)) ∧
    (∀ (i : Nat) (h0 : Hit) (s1 : Loop W Ctx Site) (site : Site),
      spamHost E (parseRef E h0) = none →
      lookupSite E (parseRef E h0) s = (s1, some site) →
      body E i h0 s =
        match createSession E (parseRef E h0) { s1 with ctx := E.withSite s1.ctx site } with
        | (s2, none) => s2
        | (s2, some h1) => persistHit E i h1 s2) ∧
    ((∀ w c (x : Hit), x.Session ≠ none → (E.defaults w c x).2.Session ≠ none) →
      ∀ (ctx : Ctx) (w : W) (m : ms), ∀ r ∈ (m.Persist E ctx w).rows, r.session ≠ none) ∧
    (∀ (ctx : Ctx) (w : W) (m : ms), ∀ r ∈ (m.Persist E ctx w).rows,
      ∃ w1 c x, x.Session ≠ none ∧ r.session = (E.defaults w1 c x).2.Session) := by
  refine ⟨?_, ?_, ?_, ?_, ?_, ?_, ?_⟩
  · intro hn
    simp [createSession, hn]
  · intro hu
    refine ⟨?_, ?_⟩
    · intro w id first hg
      simp [createSession, hu, hg]
    · intro w err hg
      simp [createSession, hu, hg]
  · unfold createSession
    by_cases hu : h.Session = none ∨ h.Session = some 0
    · rcases hg : E.getOrCreate s.w s.ctx h.Path h.Browser h.RemoteAddr with ⟨w, r⟩
      cases r <;> simp [hu]
    · simp [hu]
  · unfold createSession
    by_cases hu : h.Session = none ∨ h.Session = some 0
    · rcases hg : E.getOrCreate s.w s.ctx h.Path h.Browser h.RemoteAddr with ⟨w, r⟩
      cases r with
      | error err =>
        intro c hc p b a hcp
        subst hcp
        simp [hu] at hc
        simp [hc]
      | ok x =>
        intro c hc p b a hcp
        subst hcp
        simp [hu] at hc
        simp [hc]
    · simp [hu]
  · intro i h0 s1 site hsp hl
    simp [body, hsp, hl]
  · intro hdef ctx w m r hr
    rw [Persist_rows] at hr
    obtain ⟨h2, hm, rfl⟩ := List.mem_map.1 hr
    rw [List.reduceOption_mem_iff] at hm
    obtain ⟨i, hi⟩ := List.getElem?_of_mem hm
    obtain ⟨k1, h3, _, e2⟩ := specBatch_getElem E m.hits _ i _ hi
    obtain ⟨_, w1, c, h1, a1, _, _, a4, _⟩ := specHit_some E k1 h3 h2 e2.symm
    rw [a1]
    exact hdef w1 c h1 a4
  · intro ctx w m r hr
    rw [Persist_rows] at hr
    obtain ⟨h2, hm, rfl⟩ := List.mem_map.1 hr
    rw [List.reduceOption_mem_iff] at hm
    obtain ⟨i, hi⟩ := List.getElem?_of_mem hm
    obtain ⟨k1, h3, _, e2⟩ := specBatch_getElem E m.hits _ i _ hi
    obtain ⟨_, w1, c, h1, a1, _, _, a4, _⟩ := specHit_some E k1 h3 h2 e2.symm
    exact ⟨w1, c, h1, a4, by rw [a1]; rfl⟩

/-- C9 on an example hit without session: the resolver gives it session 1
and reports a new session; and every row of the flush of the three example
hits has a session. -/
theorem C9_session_step_witness :
    ((hit 1 "/a" "" "firefox").Session = none ∨ (hit 1 "/a" "" "firefox").Session = some 0) ∧
      (createSession (demo none) (hit 1 "/a" "" "firefox")
          (loopInit (some 1) [] [] : Loop Sessions (Option Int) Int)).2 =
        some { hit 1 "/a" "" "firefox" with Session := some 1, FirstVisit := true } ∧
      ∀ r ∈ ((ms.mk threeHits).Persist (demo none) none []).rows, r.session ≠ none :=
  ⟨Or.inl rfl,
    congrArg Prod.snd
      (((C9_session_step (demo none) (hit 1 "/a" "" "firefox")
        (loopInit (some 1) [] [])).2.1 (Or.inl rfl)).1
        [(("/a", "firefox", "10.0.0.1"), 1)] 1 true rfl),
    (C9_session_step (demo none) (hit 1 "/a" "" "firefox")
      (loopInit (some 1) [] [])).2.2.2.2.2.1 (fun _ _ _ hx => hx) none [] (ms.mk threeHits)⟩

/-- C9 fails as stated: with a `Defaults` that clears the session, the hit
gets session 1 from the resolver, passes validation, and its row goes to the
bulk inserter with a nil session. -/
theorem C9_counterexample :
    ((ms.mk [hit 1 "/a" "" "firefox"]).Persist demoClearing none []).rows.map
        (fun r => r.session) = [none] ∧
      Call.getOrCreate "/a" "firefox" "10.0.0.1" ∈
        ((ms.mk [hit 1 "/a" "" "firefox"]).Persist demoClearing none []).calls ∧
      ¬ ∀ r ∈ ((ms.mk [hit 1 "/a" "" "firefox"]).Persist demoClearing none []).rows,
        r.session ≠ none := by
  decide

/-- C10, as the code has it: two hits `a` (first) and `b` (second) of one
drained batch share their fingerprint, have no session and both go to the
bulk inserter; the resolver enforces first-creation-wins and `Defaults`
keeps session and first-visit. Then the two hits in the returned sequence
carry the same session identifier, and the second has the first-visit flag
it was drained with (false when it was false). The first has first-visit
true when the resolver holds no session for the fingerprint at the start of
the flush and no earlier hit of the batch has that fingerprint. -/
theorem C10_same_session_first_visit (E : Collab W Ctx Site)
    (known : W → String × String × String → Option Int) (hf : FirstCreationWins E known)
    (hdef : ∀ w c (x : Hit), (E.defaults w c x).2.Session = x.Session ∧
      (E.defaults w c x).2.FirstVisit = x.FirstVisit)
    (ctx : Ctx) (w : W) (before mid after : List Hit) (a b : Hit)
    (hfp : fingerprint a = fingerprint b)
    (hna : a.Session = none ∨ a.Session = some 0)
    (hnb : b.Session = none ∨ b.Session = some 0)
    (hsa : rowAdded E ctx w (before ++ a :: mid ++ b :: after) before.length = true)
    (hsb : rowAdded E ctx w (before ++ a :: mid ++ b :: after)
      (before ++ a :: mid).length = true) :
    ∃ ret a2 b2,
      (ms.Persist E ctx w { hits := before ++ a :: mid ++ b :: after }).hits = some ret ∧
      ret[before.length]? = some a2 ∧ ret[(before ++ a :: mid).length]? = some b2 ∧
      ∃ id, a2.Session = some id ∧ b2.Session = some id ∧
        b2.FirstVisit = b.FirstVisit ∧
        (known w (fingerprint a) = none → (∀ x ∈ before, fingerprint x ≠ fingerprint a) →
          a2.FirstVisit = true) := by
  have hna2 : noSession a = true := by
    rcases hna with h | h <;> simp [noSession, h]
  have hnb2 : noSession b = true := by
    rcases hnb with h | h <;> simp [noSession, h]
  have hshape : before ++ a :: mid ++ b :: after = before ++ a :: (mid ++ b :: after) := by
    simp
  have hia : (before ++ a :: mid ++ b :: after)[before.length]? = some a := by
    rw [hshape, List.getElem?_append_right (Nat.le_refl _)]; simp
  have hib : (before ++ a :: mid ++ b :: after)[(before ++ a :: mid).length]? = some b := by
    rw [List.getElem?_append_right (Nat.le_refl _)]; simp
  obtain ⟨oa, hsa1, hsa2⟩ := rowAdded_spec E ctx w _ _ a hia
  obtain ⟨ob, hsb1, hsb2⟩ := rowAdded_spec E ctx w _ _ b hib
  rw [hsa] at hsa2
  rw [hsb] at hsb2
  obtain ⟨a2, rfl⟩ := Option.isSome_iff_exists.1 hsa2.symm
  obtain ⟨b2, rfl⟩ := Option.isSome_iff_exists.1 hsb2.symm
  have hoa := specBatch_getElem_length E before (mid ++ b :: after) a (envInit ctx w)
  rw [← hshape, hsa1] at hoa
  have hob := specBatch_getElem_length E (before ++ a :: mid) after b (envInit ctx w)
  rw [hsb1] at hob
  have hoa2 : (specHit E (specBatch E (envInit ctx w) before).1 a).2 = some a2 :=
    (Option.some.inj hoa).symm
  have hob2 : (specHit E (specBatch E (envInit ctx w) (before ++ a :: mid)).1 b).2 = some b2 :=
    (Option.some.inj hob).symm
  have hkb : (specBatch E (envInit ctx w) (before ++ a :: mid)).1 =
      (specBatch E (specHit E (specBatch E (envInit ctx w) before).1 a).1 mid).1 := by
    rw [specBatch_append]; rfl
  obtain ⟨id, sa1, sa2, _, sa4⟩ := specHit_fcw E known hf hdef _ a a2 hna2 hoa2
  obtain ⟨idb, sb1, _, sb3, _⟩ := specHit_fcw E known hf hdef _ b b2 hnb2 hob2
  have hmid := specBatch_known_some E known hf (fingerprint a) id mid _ sa2
  rw [← hkb, hfp] at hmid
  obtain ⟨e1, e2⟩ := sb3 id hmid
  obtain ⟨_, p2, _⟩ := Persist_spec E ctx w { hits := before ++ a :: mid ++ b :: after }
    (by simp)
  refine ⟨_, a2, b2, p2, ?_, ?_, id, sa1, by rw [sb1, e1], e2, ?_⟩
  · rw [List.getElem?_zipWith, hsa1]
    simp only [hia]
    rfl
  · rw [List.getElem?_zipWith, hsb1]
    simp only [hib]
    rfl
  · intro hnone hbefore
    apply sa4
    rw [specBatch_known_other E known hf (fingerprint a) before _ hbefore]
    exact hnone

/-- C10 on an example batch: two hits with one fingerprint around a hit
with another one; both get a row, and there are returned hits at their slots
with one session, the second not a first visit. -/
theorem C10_same_session_first_visit_witness :
    (fingerprint (hit 1 "/a" "" "firefox") = fingerprint (hit 1 "/a" "" "firefox") ∧
      ((hit 1 "/a" "" "firefox").Session = none ∨
        (hit 1 "/a" "" "firefox").Session = some 0) ∧
      rowAdded (demo none) none []
        ([] ++ hit 1 "/a" "" "firefox" :: [hit 1 "/x" "" "chrome"] ++
          hit 1 "/a" "" "firefox" :: []) ([] : List Hit).length = true ∧
      rowAdded (demo none) none []
        ([] ++ hit 1 "/a" "" "firefox" :: [hit 1 "/x" "" "chrome"] ++
          hit 1 "/a" "" "firefox" :: [])
        (([] : List Hit) ++ hit 1 "/a" "" "firefox" :: [hit 1 "/x" "" "chrome"]).length =
          true) ∧
    ∃ ret a2 b2, (ms.Persist (demo none) none []
        { hits := [] ++ hit 1 "/a" "" "firefox" :: [hit 1 "/x" "" "chrome"] ++
          hit 1 "/a" "" "firefox" :: [] }).hits = some ret ∧
      ret[([] : List Hit).length]? = some a2 ∧
      ret[(([] : List Hit) ++ hit 1 "/a" "" "firefox" :: [hit 1 "/x" "" "chrome"]).length]? =
        some b2 ∧
      ∃ id, a2.Session = some id ∧ b2.Session = some id ∧
        b2.FirstVisit = (hit 1 "/a" "" "firefox").FirstVisit ∧
        (List.lookup (fingerprint (hit 1 "/a" "" "firefox")) ([] : Sessions) = none →
          (∀ x ∈ ([] : List Hit), fingerprint x ≠ fingerprint (hit 1 "/a" "" "firefox")) →
          a2.FirstVisit = true) :=
  ⟨⟨rfl, Or.inl rfl, by decide, by decide⟩,
    C10_same_session_first_visit (demo none) (fun w fp => w.lookup fp) (demo_fcw none)
      (fun _ _ _ => ⟨rfl, rfl⟩) none [] [] [hit 1 "/x" "" "chrome"] []
      (hit 1 "/a" "" "firefox") (hit 1 "/a" "" "firefox")
      rfl (Or.inl rfl) (Or.inl rfl) (by decide) (by decide)⟩

/-- C10 fails as stated. First: a flush of one hit creates the session of
its fingerprint; in the next flush two hits with that fingerprint, without
session, both get a row and the same session, and the first of the two has
first-visit false, the resolver reporting a new session only on its first
call. Second: when the second of two such hits was appended with first-visit
true, it keeps it. The resolver enforces first-creation-wins. -/
theorem C10_counterexample :
    FirstCreationWins (demo none) (fun w fp => w.lookup fp) ∧
    ((ms.Persist (demo none) none
        (ms.Persist (demo none) none [] { hits := [hit 1 "/a" "" "firefox"] }).w
        { hits := [hit 1 "/a" "" "firefox", hit 1 "/a" "" "firefox"] }).hits.getD []).map
      (fun h => (h.Session, h.FirstVisit)) = [(some 1, false), (some 1, false)] ∧
    (ms.Persist (demo none) none
        (ms.Persist (demo none) none [] { hits := [hit 1 "/a" "" "firefox"] }).w
        { hits := [hit 1 "/a" "" "firefox", hit 1 "/a" "" "firefox"] }).rows.length = 2 ∧
    ((ms.Persist (demo none) none []
        { hits := [hit 1 "/a" "" "firefox",
          { hit 1 "/a" "" "firefox" with FirstVisit := true }] }).hits.getD []).map
      (fun h => (h.Session, h.FirstVisit)) = [(some 1, true), (some 1, true)] ∧
    (ms.Persist (demo none) none []
        { hits := [hit 1 "/a" "" "firefox",
          { hit 1 "/a" "" "firefox" with FirstVisit := true }] }).rows.length = 2 :=
  ⟨demo_fcw none, by decide, by decide, by decide, by decide⟩

end Goatcounter
